import Mathlib

/-!
# Time OS verification scripts: a shallow embedding

The repository holds verification scripts that introspect live globals
(`verifyPhase2.js`, `phase2_final_verification.js`, `verifyPhase2Complete.js`,
`validate_load_order.js`) or string-match source files (`verify_phases_1_2.js`).

The embedding has three layers:

* `JsVal`, `Env`: the fragment of JavaScript values and of the global scope the
  scripts observe (`typeof`, truthiness, `&&`, property reads, `=== true`,
  a zero-argument call);
* one Lean function per script function, kept under a namespace named after
  the source file;
* `Container`: the service container the scripts interrogate.  Its code is not
  part of the repository, so it is modelled from the specification.

Conventions.  A computation that may throw returns `Except JsVal α`, the error
being the thrown value.  `Logger.log` and `console.log` are taken to be
available and total; where a statement of interest is about what is logged the
log is returned as a `List String`.  Property reads are reads of data
properties (no accessor runs code).
-/

namespace TimeOS

/-! ## JavaScript values -/

/-- The JavaScript values the scripts can tell apart.  Numbers are kept up to
what `typeof` and truthiness observe (an integer, or `NaN`).  An object is its
list of own enumerable data properties.  A function carries its own properties
(among them `prototype`) and what a zero-argument call does: it returns `ret`,
or throws `ret` when `throws` is set. -/
inductive JsVal where
  | undefined : JsVal
  | null : JsVal
  | bool (b : Bool) : JsVal
  | num (n : Int) : JsVal
  | nan : JsVal
  | str (s : String) : JsVal
  | obj (props : List (String × JsVal)) : JsVal
  | func (props : List (String × JsVal)) (ret : JsVal) (throws : Bool) : JsVal

namespace JsVal

/-- The `typeof` operator on a value. -/
def typeof : JsVal → String
  | undefined => "undefined"
  | null => "object"
  | bool _ => "boolean"
  | num _ => "number"
  | nan => "number"
  | str _ => "string"
  | obj _ => "object"
  | func _ _ _ => "function"

/-- ToBoolean: what `if (v)`, `!!v`, `v ? a : b` and `v && w` test. -/
def truthy : JsVal → Bool
  | undefined => false
  | null => false
  | bool b => b
  | num n => n != 0
  | nan => false
  | str s => s != ""
  | obj _ => true
  | func _ _ _ => true

/-- The test `v === true`. -/
def isTrue : JsVal → Bool
  | bool true => true
  | _ => false

/-- The test `v === 'lit'` against a string literal. -/
def strictEqStr : JsVal → String → Bool
  | str s, lit => s == lit
  | _, _ => false

/-- An engine-made error object. -/
def mkError (name message : String) : JsVal :=
  obj [("name", str name), ("message", str message)]

/-- The message of the `TypeError` of a property read on `undefined` or `null`. -/
def readErrorMessage (v : JsVal) (key : String) : String :=
  "Cannot read properties of " ++ (if v.typeof = "undefined" then "undefined" else "null") ++
    " (reading '" ++ key ++ "')"

/-- The property read `v.key`: a `TypeError` on `undefined` and `null`, the own
property of an object or function when there is one, `undefined` otherwise
(none of the names the scripts read is on a built-in prototype). -/
def getProp (v : JsVal) (key : String) : Except JsVal JsVal :=
  match v with
  | undefined => .error (mkError "TypeError" (readErrorMessage undefined key))
  | null => .error (mkError "TypeError" (readErrorMessage null key))
  | obj props => .ok ((props.lookup key).getD undefined)
  | func props _ _ => .ok ((props.lookup key).getD undefined)
  | _ => .ok undefined

/-- The zero-argument method call `recv.key()`. -/
def callMethod (recv : JsVal) (key : String) : Except JsVal JsVal := do
  let f ← getProp recv key
  match f with
  | func _ ret throws => if throws then .error ret else .ok ret
  | _ => .error (mkError "TypeError" (key ++ " is not a function"))

/-- The builtin `Object.keys(v)` on the values that reach it behind a
`typeof v === 'object'` guard. -/
def objectKeys (v : JsVal) : Except JsVal (List String) :=
  match v with
  | undefined => .error (mkError "TypeError" "Cannot convert undefined or null to object")
  | null => .error (mkError "TypeError" "Cannot convert undefined or null to object")
  | obj props => .ok (props.map Prod.fst).eraseDups
  | _ => .ok []

end JsVal

open JsVal

/-- The global scope.  `lexical` holds the top-level `const`, `let` and `class`
bindings, `globalObject` the properties of the global object (top-level
`function` and `var` declarations land there).  An identifier is looked up in
`lexical` first; `this[name]` in a plainly called function reads `globalObject`
only. -/
structure Env where
  lexical : List (String × JsVal)
  globalObject : List (String × JsVal)

namespace Env

/-- The binding an identifier resolves to, if it is declared at all. -/
def resolve (env : Env) (name : String) : Option JsVal :=
  match env.lexical.lookup name with
  | some v => some v
  | none => env.globalObject.lookup name

/-- The expression `typeof name`, which does not throw on an undeclared name. -/
def typeofIdent (env : Env) (name : String) : String :=
  match env.resolve name with
  | some v => v.typeof
  | none => "undefined"

/-- The expression `name`: a `ReferenceError` when the name is undeclared. -/
def ident (env : Env) (name : String) : Except JsVal JsVal :=
  match env.resolve name with
  | some v => .ok v
  | none => .error (mkError "ReferenceError" (name ++ " is not defined"))

/-- The expression `this[name]` with `this` the global object. -/
def thisProp (env : Env) (name : String) : JsVal :=
  (env.globalObject.lookup name).getD undefined

/-- The expression `name.key`. -/
def member (env : Env) (name key : String) : Except JsVal JsVal :=
  env.ident name >>= (getProp · key)

/-- The expression `name.prototype.key`. -/
def protoMember (env : Env) (name key : String) : Except JsVal JsVal :=
  env.member name "prototype" >>= (getProp · key)

end Env

/-- The operator `a && b` with `a` already evaluated: `b` is evaluated only
when `a` is truthy, and the result is an operand, not a boolean. -/
def jsAnd (a : JsVal) (b : Except JsVal JsVal) : Except JsVal JsVal :=
  if a.truthy then b else .ok a

/-- The message read `error.message` in a `catch` block, as a string to log. -/
def errorMessage (e : JsVal) : String :=
  match getProp e "message" with
  | .ok (str s) => s
  | _ => "undefined"

/-! ## `verifyPhase2.js` -/

namespace VerifyPhase2Js

/-- The `checks` object literal of `verifyPhase2`, in property order. -/
structure Checks where
  servicesEnum : JsVal
  businessLogicExists : JsVal
  auditProtocolExists : JsVal
  businessLogicMethods : JsVal
  auditProtocolMethods : JsVal

/-- The property `servicesEnum`. -/
def servicesEnum (env : Env) : Except JsVal JsVal := do
  let a ← env.member "SERVICES" "BusinessLogicValidation"
  jsAnd a (env.member "SERVICES" "AuditProtocol")

/-- A property `typeof C === 'function' && C.prototype.m1 && ... && C.prototype.mk`. -/
def methodsChain (env : Env) (cls : String) : List String → JsVal → Except JsVal JsVal
  | [], acc => .ok acc
  | m :: ms, acc => do
    let v ← jsAnd acc (env.protoMember cls m)
    methodsChain env cls ms v

/-- The properties `businessLogicMethods` and `auditProtocolMethods`. -/
def classMethods (env : Env) (cls : String) (methods : List String) : Except JsVal JsVal :=
  methodsChain env cls methods (bool (env.typeofIdent cls == "function"))

/-- Builds the `checks` object; an exception of a property read leaves the function. -/
def checks (env : Env) : Except JsVal Checks := do
  let servicesEnum ← servicesEnum env
  let businessLogicExists := bool (env.typeofIdent "BusinessLogicValidation" == "function")
  let auditProtocolExists := bool (env.typeofIdent "AuditProtocol" == "function")
  let businessLogicMethods ← classMethods env "BusinessLogicValidation"
    ["validateTaskCreation", "validateStateTransition", "validateScheduleConflict", "selfTest"]
  let auditProtocolMethods ← classMethods env "AuditProtocol"
    ["logAuditEvent", "getAuditTrail", "generateAuditReport", "selfTest"]
  pure { servicesEnum, businessLogicExists, auditProtocolExists, businessLogicMethods,
         auditProtocolMethods }

/-- The values of `checks`, as `Object.values` lists them. -/
def Checks.values (c : Checks) : List JsVal :=
  [c.servicesEnum, c.businessLogicExists, c.auditProtocolExists, c.businessLogicMethods,
   c.auditProtocolMethods]

/-- The function `verifyPhase2` of `verifyPhase2.js`: its return value (the two
log lines, one of them a `JSON.stringify` of `checks`, are left out). -/
def verifyPhase2 (env : Env) : Except JsVal Bool := do
  let c ← checks env
  pure (c.values.all fun v => v.isTrue)

end VerifyPhase2Js

/-! ## `phase2_final_verification.js` -/

namespace Phase2FinalVerification

/-- The object `results`. -/
structure Results where
  task1_services_enum : Bool
  task2_business_logic_service : Bool
  task3_audit_protocol_service : Bool
  task4_service_registrations : Bool
  all_constants_valid : Bool

/-- The values of `results`, as `Object.values` lists them. -/
def Results.values (r : Results) : List Bool :=
  [r.task1_services_enum, r.task2_business_logic_service, r.task3_audit_protocol_service,
   r.task4_service_registrations, r.all_constants_valid]

/-- What `runPhase2Verification` returns, together with the lines it logs. -/
structure Outcome where
  success : Bool
  results : Results
  summary : List (String × Bool)
  logs : List String

/-- The two strict comparisons of the Task 1 block, which throw when `SERVICES`
is undeclared, `undefined` or `null`. -/
def servicesEntries (env : Env) : Except JsVal (Bool × Bool) := do
  let bl ← env.member "SERVICES" "BusinessLogicValidation"
  let ap ← env.member "SERVICES" "AuditProtocol"
  pure (bl.strictEqStr "BusinessLogicValidation", ap.strictEqStr "AuditProtocol")

/-- The Task 1 block: the lines logged and the value left in
`results.task1_services_enum`. -/
def task1 (env : Env) : List String × Bool :=
  match servicesEntries env with
  | .ok (hasBusinessLogic, hasAuditProtocol) =>
    (["✓ SERVICES.BusinessLogicValidation:" ++ (if hasBusinessLogic then " ✅ FOUND" else " ❌ MISSING"),
      "✓ SERVICES.AuditProtocol:" ++ (if hasAuditProtocol then " ✅ FOUND" else " ❌ MISSING"),
      "TASK 1 RESULT: " ++ (if hasBusinessLogic && hasAuditProtocol then "✅ PASS" else "❌ FAIL")],
     hasBusinessLogic && hasAuditProtocol)
  | .error e => (["❌ TASK 1 ERROR: " ++ errorMessage e], false)

/-- The object literal `methods`: each entry is `!!C.prototype.m`. -/
def methodFlags (env : Env) (cls : String) : List String → Except JsVal (List (String × Bool))
  | [] => .ok []
  | m :: ms => do
    let v ← env.protoMember cls m
    let rest ← methodFlags env cls ms
    pure ((m, v.truthy) :: rest)

/-- The blocks of Task 2 and Task 3, which differ in the class, the method
names and the task number only. -/
def serviceTask (env : Env) (task cls : String) (methods : List String) : List String × Bool :=
  let classExists := env.typeofIdent cls == "function"
  let head := ["✓ Class exists: " ++ (if classExists then "✅ YES" else "❌ NO")]
  if classExists then
    match methodFlags env cls methods with
    | .ok flags =>
      let r := flags.all fun kv => kv.2 == true
      (head ++ flags.map (fun kv => "✓ " ++ kv.1 ++ ": " ++ (if kv.2 then "✅ YES" else "❌ NO")) ++
        ["TASK " ++ task ++ " RESULT: " ++ (if r then "✅ PASS" else "❌ FAIL")], r)
    | .error e => (head ++ ["❌ TASK " ++ task ++ " ERROR: " ++ errorMessage e], false)
  else
    (head ++ ["TASK " ++ task ++ " RESULT: " ++ "❌ FAIL"], false)

/-- The method names Task 2 probes on `BusinessLogicValidation.prototype`. -/
def businessLogicMethods : List String :=
  ["validateTaskCreation", "validateStateTransition", "validateScheduleConflict",
   "validatePriority", "selfTest"]

/-- The method names Task 3 probes on `AuditProtocol.prototype`. -/
def auditProtocolMethods : List String :=
  ["logAuditEvent", "getAuditTrail", "generateAuditReport", "_determineSeverity",
   "_flushAuditCache", "selfTest"]

/-- The Task 4 block: three lines, then `results.task4_service_registrations = true`. -/
def task4 : List String × Bool :=
  (["✓ Service registrations added to ServiceRegistration.gs",
    "✓ Circular dependency resolution implemented",
    "✓ Lazy loading pattern applied",
    "TASK 4 RESULT: " ++ "✅ PASS"], true)

/-- An entry `typeof C === 'object' && C.k1 && ... && C.kn` of `constantsValid`. -/
def enumEntry (env : Env) (name : String) : List String → JsVal → Except JsVal JsVal
  | [], acc => .ok acc
  | k :: ks, acc => do
    let v ← jsAnd acc (env.member name k)
    enumEntry env name ks v

/-- The entry `LANE: typeof LANE === 'object' && Object.keys(LANE).length > 0`. -/
def laneEntry (env : Env) : Except JsVal JsVal :=
  jsAnd (bool (env.typeofIdent "LANE" == "object")) (do
    let lane ← env.ident "LANE"
    let keys ← objectKeys lane
    pure (bool (decide (keys.length > 0))))

/-- The object literal `constantsValid`, as the list of its four values in
property order (`STATUS`, `PRIORITY`, `LANE`, `SHEET_NAMES`). -/
def constantsValid (env : Env) : Except JsVal (List JsVal) := do
  let status ← enumEntry env "STATUS" ["PENDING", "IN_PROGRESS", "COMPLETED"]
    (bool (env.typeofIdent "STATUS" == "object"))
  let priority ← enumEntry env "PRIORITY" ["HIGH", "MEDIUM", "LOW"]
    (bool (env.typeofIdent "PRIORITY" == "object"))
  let lane ← laneEntry env
  let sheetNames ← enumEntry env "SHEET_NAMES" ["ACTIVITY"]
    (bool (env.typeofIdent "SHEET_NAMES" == "object"))
  pure [status, priority, lane, sheetNames]

/-- The labels of the four lines the constants block logs. -/
def constantLabels : List String :=
  ["✓ STATUS enum: ", "✓ PRIORITY enum: ", "✓ LANE enum: ", "✓ SHEET_NAMES: "]

/-- The constants block: the lines logged and the value left in
`results.all_constants_valid`. -/
def constants (env : Env) : List String × Bool :=
  match constantsValid env with
  | .ok vals =>
    let r := vals.all fun v => v.isTrue
    (List.zipWith (fun l v => l ++ (if v.truthy then "✅ VALID" else "❌ INVALID")) constantLabels vals ++
      ["CONSTANTS RESULT: " ++ (if r then "✅ PASS" else "❌ FAIL")], r)
  | .error e => (["❌ CONSTANTS ERROR: " ++ errorMessage e], false)

/-- The object `taskResults`, in property order. -/
def taskResults (r : Results) : List (String × Bool) :=
  [("Task 1 (SERVICES Enum)", r.task1_services_enum),
   ("Task 2 (BusinessLogicValidation)", r.task2_business_logic_service),
   ("Task 3 (AuditProtocol)", r.task3_audit_protocol_service),
   ("Task 4 (Service Registrations)", r.task4_service_registrations),
   ("Constants Validation", r.all_constants_valid)]

/-- The number `passedCount`. -/
def passedCount (r : Results) : Nat :=
  (r.values.filter fun v => v == true).length

/-- The lines logged from `FINAL SUMMARY` on. -/
def summaryLogs (r : Results) : List String :=
  let allPassed := r.values.all fun v => v == true
  ["\n🎯 PHASE 2 VERIFICATION SUMMARY", "================================"] ++
  (taskResults r).map (fun tp =>
    (if tp.2 then "✅" else "❌") ++ " " ++ tp.1 ++ ": " ++ (if tp.2 then "PASS" else "FAIL")) ++
  ["\n📊 FINAL RESULT", "================",
   "Passed: " ++ toString (passedCount r) ++ "/" ++ toString r.values.length,
   "Overall: " ++ (if allPassed then "🎉 SUCCESS" else "⚠️ NEEDS ATTENTION")] ++
  (if allPassed then
    ["\n🚀 PHASE 2 COMPLETED SUCCESSFULLY!", "✅ All service container fixes implemented",
     "✅ New services created and registered", "✅ Circular dependencies resolved",
     "✅ Ready for system integration testing"]
   else
    ["\n⚠️ PHASE 2 INCOMPLETE", "Please address the failed checks before proceeding"])

/-- The function `runPhase2Verification`. -/
def runPhase2Verification (env : Env) : Outcome :=
  let t1 := task1 env
  let t2 := serviceTask env "2" "BusinessLogicValidation" businessLogicMethods
  let t3 := serviceTask env "3" "AuditProtocol" auditProtocolMethods
  let t4 := task4
  let cs := constants env
  let results : Results :=
    { task1_services_enum := t1.2, task2_business_logic_service := t2.2,
      task3_audit_protocol_service := t3.2, task4_service_registrations := t4.2,
      all_constants_valid := cs.2 }
  { success := results.values.all fun v => v == true
    results := results
    summary := taskResults results
    logs :=
      ["🚀 STARTING PHASE 2 FINAL VERIFICATION", "====================================="] ++
      ["\n📋 TASK 1: SERVICES Enum Entries", "--------------------------------"] ++ t1.1 ++
      ["\n🔧 TASK 2: BusinessLogicValidation Service",
       "------------------------------------------"] ++ t2.1 ++
      ["\n📊 TASK 3: AuditProtocol Service", "--------------------------------"] ++ t3.1 ++
      ["\n⚙️ TASK 4: Service Registrations", "--------------------------------"] ++ t4.1 ++
      ["\n🔧 CONSTANTS VALIDATION", "------------------------"] ++ cs.1 ++
      summaryLogs results }

end Phase2FinalVerification

/-! ## `verifyPhase2Complete.js` -/

namespace VerifyPhase2Complete

/-- The object `results`, returned as `details`. -/
structure Details where
  task1 : Bool
  task2 : Bool
  task3 : Bool
  task4 : Bool

/-- The values of `results`, as `Object.values` lists them. -/
def Details.values (d : Details) : List Bool :=
  [d.task1, d.task2, d.task3, d.task4]

/-- What `verifyPhase2Complete` returns, together with the lines it logs. -/
structure Outcome where
  success : Bool
  details : Details
  logs : List String

/-- A boolean as string concatenation renders it. -/
def boolText (b : Bool) : String :=
  if b then "true" else "false"

/-- The two strict comparisons of the Task 1 block. -/
def servicesEntries (env : Env) : Except JsVal (Bool × Bool) := do
  let bl ← env.member "SERVICES" "BusinessLogicValidation"
  let ap ← env.member "SERVICES" "AuditProtocol"
  pure (bl.strictEqStr "BusinessLogicValidation", ap.strictEqStr "AuditProtocol")

/-- The Task 1 block: the lines logged and the value left in `results.task1`. -/
def task1 (env : Env) : List String × Bool :=
  let head := ["\n1. Checking SERVICES enum entries..."]
  match servicesEntries env with
  | .ok (hasBusinessLogic, hasAuditProtocol) =>
    if hasBusinessLogic && hasAuditProtocol then
      (head ++ ["✓ SERVICES enum contains BusinessLogicValidation and AuditProtocol"], true)
    else
      (head ++ ["✗ SERVICES enum missing required entries",
                "  BusinessLogicValidation: " ++ boolText hasBusinessLogic,
                "  AuditProtocol: " ++ boolText hasAuditProtocol], false)
  | .error e => (head ++ ["✗ SERVICES enum check failed: " ++ errorMessage e], false)

/-- The constants `hasX = C.prototype.x`, read one after the other whether or
not the class exists. -/
def methodValues (env : Env) (cls : String) : List String → Except JsVal (List (String × JsVal))
  | [] => .ok []
  | m :: ms => do
    let v ← env.protoMember cls m
    let rest ← methodValues env cls ms
    pure ((m, v) :: rest)

/-- The blocks of Task 2 and Task 3, which differ in the class, the method
names and the texts only. -/
def serviceTask (env : Env) (num cls : String) (methods : List String) : List String × Bool :=
  let head := ["\n" ++ num ++ ". Checking " ++ cls ++ " service..."]
  let classExists := env.typeofIdent cls == "function"
  match methodValues env cls methods with
  | .ok vals =>
    if classExists && vals.all (fun kv => kv.2.truthy) then
      (head ++ ["✓ " ++ cls ++ " service complete with all required methods"], true)
    else
      (head ++ ["✗ " ++ cls ++ " service incomplete", "  Class exists: " ++ boolText classExists] ++
        vals.map (fun kv => "  " ++ kv.1 ++ ": " ++ boolText kv.2.truthy), false)
  | .error e => (head ++ ["✗ " ++ cls ++ " check failed: " ++ errorMessage e], false)

/-- The method names Task 2 reads from `BusinessLogicValidation.prototype`. -/
def businessLogicMethods : List String :=
  ["validateTaskCreation", "validateStateTransition", "validateScheduleConflict",
   "validatePriority", "selfTest"]

/-- The method names Task 3 reads from `AuditProtocol.prototype`. -/
def auditProtocolMethods : List String :=
  ["logAuditEvent", "getAuditTrail", "generateAuditReport", "_determineSeverity",
   "_flushAuditCache", "selfTest"]

/-- The Task 4 block: three lines, then `results.task4 = true`. -/
def task4 : List String × Bool :=
  (["\n4. Checking service registrations...",
    "✓ Service registrations and circular dependency fixes applied",
    "  Note: Full container verification requires system execution"], true)

/-- The lines logged from the summary on. -/
def summaryLogs (d : Details) : List String :=
  let allTasksPassed := d.values.all fun v => v == true
  ["\n=== PHASE 2 VERIFICATION SUMMARY ===",
   "Task 1 (SERVICES enum): " ++ (if d.task1 then "✓ PASS" else "✗ FAIL"),
   "Task 2 (BusinessLogicValidation): " ++ (if d.task2 then "✓ PASS" else "✗ FAIL"),
   "Task 3 (AuditProtocol): " ++ (if d.task3 then "✓ PASS" else "✗ FAIL"),
   "Task 4 (Service registrations): " ++ (if d.task4 then "✓ PASS" else "✗ FAIL"),
   "\n🎯 PHASE 2 OVERALL RESULT: " ++ (if allTasksPassed then "✅ SUCCESS" else "❌ FAILURE"),
   if allTasksPassed then "🚀 Phase 2 is complete and ready for system integration!"
   else "⚠️ Phase 2 has issues that need to be resolved."]

/-- The function `verifyPhase2Complete`. -/
def verifyPhase2Complete (env : Env) : Outcome :=
  let t1 := task1 env
  let t2 := serviceTask env "2" "BusinessLogicValidation" businessLogicMethods
  let t3 := serviceTask env "3" "AuditProtocol" auditProtocolMethods
  let t4 := task4
  let details : Details := { task1 := t1.2, task2 := t2.2, task3 := t3.2, task4 := t4.2 }
  { success := details.values.all fun v => v == true
    details := details
    logs := ["=== PHASE 2 COMPREHENSIVE VERIFICATION ==="] ++ t1.1 ++ t2.1 ++ t3.1 ++ t4.1 ++
      summaryLogs details }

end VerifyPhase2Complete

/-! ## `validate_load_order.js` -/

namespace ValidateLoadOrder

/-- The array `remoteControlFunctions` of Test 5. -/
def remoteControlFunctions : List String :=
  ["START", "STOP", "STATUS", "EMAIL", "SCHEDULE"]

/-- The array `errorClasses` of Test 7. -/
def errorClasses : List String :=
  ["DatabaseError", "ValidationError", "BusinessLogicError", "SchedulingError", "TriageError"]

/-- The loops of Test 5 and Test 7: the flag starts `true` and is cleared by
every name for which `typeof this[name] === 'function'` fails. -/
def allExist (env : Env) (names : List String) : Bool :=
  names.all fun n => (env.thisProp n).typeof == "function"

/-- The `try` body of Test 6: `container.getHealthStatus()`, then the read
`status.status` for the log line. -/
def healthProbe (env : Env) : Except JsVal JsVal := do
  let c ← env.ident "container"
  let status ← callMethod c "getHealthStatus"
  getProp status "status"

/-- Test 6: `true` when the `try` body completes, `false` when the `catch`
block runs and returns; the `catch` block itself throws when the caught value
has no `message` to read (`undefined` or `null`). -/
def containerOperations (env : Env) : Except JsVal Bool :=
  match healthProbe env with
  | .ok _ => .ok true
  | .error e =>
    match getProp e "message" with
    | .ok _ => .ok false
    | .error e2 => .error e2

/-- The function `validateLoadOrder`: its return value, or the value it throws
(the `console.log` output is left out, the evaluation of its arguments is not). -/
def validateLoadOrder (env : Env) : Except JsVal Bool :=
  if env.typeofIdent "container" == "undefined" then .ok false
  else if env.typeofIdent "CONSTANTS" == "undefined" then .ok false
  else do
    let _ ← env.member "CONSTANTS" "VERSION"
    if env.typeofIdent "SERVICES" == "undefined" then .ok false
    else do
      let _ ← env.member "SERVICES" "SmartLogger"
      if env.typeofIdent "STATUS" == "undefined" then .ok false
      else do
        let _ ← env.member "STATUS" "NOT_STARTED"
        let allFunctionsExist := allExist env remoteControlFunctions
        let test6 ← containerOperations env
        if test6 then
          let allErrorsExist := allExist env errorClasses
          .ok (allFunctionsExist && allErrorsExist)
        else .ok false

end ValidateLoadOrder

/-! ## `verify_phases_1_2.js` -/

namespace VerifyPhases12

/-- The part of the `fs` module the script uses: `readFileSync(path, 'utf8')`
returns the content or throws (`none`), `existsSync(path)` returns a boolean. -/
structure FileSystem where
  readFileSync : String → Option String
  existsSync : String → Bool

/-- The method `content.includes(needle)`: `needle` occurs as a substring. -/
def includes (content needle : String) : Bool :=
  content.data.tails.any fun t => needle.data.isPrefixOf t

/-- The directory all seven target files are under. -/
def root : String := "/Users/molhamhomsi/Downloads/Time OS/moh-time-os-v2/src/"

/-- The path `safeColumnPath`. -/
def safeColumnPath : String := root ++ "7_support/SafeColumnAccess.gs"
/-- The path `schedulerPath`. -/
def schedulerPath : String := root ++ "4_services/IntelligentScheduler.gs"
/-- The path `enginePath`. -/
def enginePath : String := root ++ "4_services/EmailIngestionEngine.gs"
/-- The path `constantsPath`. -/
def constantsPath : String := root ++ "1_globals/Constants.gs"
/-- The path `blvPath`. -/
def blvPath : String := root ++ "4_services/BusinessLogicValidation.gs"
/-- The path `auditPath`. -/
def auditPath : String := root ++ "4_services/AuditProtocol.gs"
/-- The path `regPath`. -/
def regPath : String := root ++ "8_setup/ServiceRegistration.gs"

/-- The files `verifyPhase1` and `verifyPhase2` read. -/
def targetPaths : List String :=
  [safeColumnPath, schedulerPath, enginePath, constantsPath, blvPath, auditPath, regPath]

/-- The method names Check 1 of `verifyPhase1` looks for. -/
def safeColumnMethods : List String :=
  ["buildColumnMap", "getColumnIndex", "getValue", "setValue", "createEmptyRow", "validateRow",
   "mapRowToObject", "mapObjectToRow"]

/-- The function `verifyPhase1`: the `checks` object as the list of its
properties in insertion order.  A failed read leaves the `try` block before
any property is set, and the `catch` block sets the ones it names. -/
def verifyPhase1 (fs : FileSystem) : List (String × Bool) :=
  (match fs.readFileSync safeColumnPath with
   | some content =>
     [("safeColumnExists", fs.existsSync safeColumnPath),
      ("hasAllMethods", safeColumnMethods.all fun method => includes content method)]
   | none => [("safeColumnExists", false), ("hasAllMethods", false)]) ++
  (match fs.readFileSync schedulerPath with
   | some content =>
     [("stubRemoved", !includes content "// STUB:"),
      ("hasActiveHours", includes content "_calculateActiveHours()"),
      ("hasTotalHours", includes content "_calculateTotalAvailableHours()")]
   | none => [("stubRemoved", false)]) ++
  (match fs.readFileSync enginePath with
   | some content =>
     [("learningImplemented", includes content "_persistLearningData("),
      ("hasRecommendation", includes content "_generateRecommendation("),
      ("learningSystemComplete", !includes content "return \x7b\x7d;" || includes content "patterns:")]
   | none => [("learningImplemented", false)]) ++
  (match fs.readFileSync constantsPath with
   | some content => [("dependenciesSheet", includes content "DEPENDENCIES: 'Dependencies'")]
   | none => [("dependenciesSheet", false)])

/-- The function `verifyPhase2` of `verify_phases_1_2.js`. -/
def verifyPhase2 (fs : FileSystem) : List (String × Bool) :=
  (match fs.readFileSync constantsPath with
   | some content =>
     [("businessLogicInEnum", includes content "BusinessLogicValidation: 'BusinessLogicValidation'"),
      ("auditProtocolInEnum", includes content "AuditProtocol: 'AuditProtocol'")]
   | none => [("businessLogicInEnum", false), ("auditProtocolInEnum", false)]) ++
  (match fs.readFileSync blvPath with
   | some content =>
     [("businessLogicExists", fs.existsSync blvPath),
      ("hasValidateTask", includes content "validateTaskCreation("),
      ("hasStateTransition", includes content "validateStateTransition("),
      ("hasScheduleConflict", includes content "validateScheduleConflict("),
      ("hasSelfTest", includes content "selfTest()")]
   | none => [("businessLogicExists", false)]) ++
  (match fs.readFileSync auditPath with
   | some content =>
     [("auditProtocolExists", fs.existsSync auditPath),
      ("hasLogAudit", includes content "logAuditEvent("),
      ("hasGetTrail", includes content "getAuditTrail("),
      ("hasGenerateReport", includes content "generateAuditReport("),
      ("hasBatchWriting", includes content "_flushAuditCache(")]
   | none => [("auditProtocolExists", false)]) ++
  (match fs.readFileSync regPath with
   | some content =>
     [("businessLogicRegistered",
        includes content "container.register(\n    SERVICES.BusinessLogicValidation"),
      ("auditProtocolRegistered", includes content "container.register(\n    SERVICES.AuditProtocol"),
      ("circularDependencyFixed",
        includes content "engine.setTriageEngine = () => container.get(SERVICES.ZeroTrustTriageEngine)")]
   | none => [("businessLogicRegistered", false), ("auditProtocolRegistered", false)])

/-- The expression `Object.values(checks).filter(v => v === true).length`. -/
def passCount (checks : List (String × Bool)) : Nat :=
  (checks.filter fun kv => kv.2 == true).length

/-- The number `totalPass`. -/
def totalPass (fs : FileSystem) : Nat :=
  passCount (verifyPhase1 fs) + passCount (verifyPhase2 fs)

/-- The number `total`. -/
def total (fs : FileSystem) : Nat :=
  (verifyPhase1 fs).length + (verifyPhase2 fs).length

/-- The line the script logs when `totalPass === total`. -/
def successMessage : String := "\n✓ ALL PHASE 1 & 2 FIXES VERIFIED AND PERFECT!"

/-- The line the script logs otherwise. -/
def failureMessage : String :=
  "\n✗ Some fixes are incomplete or incorrect. Review failed checks above."

/-- The line logged for one property of a `checks` object. -/
def checkLine (kv : String × Bool) : String :=
  "  " ++ kv.1 ++ ": " ++ (if kv.2 then "✓ PASS" else "✗ FAIL")

/-- A line of the summary: `label + pass + '/' + total + ' checks passed (' + pct + '%)'`. -/
def summaryLine (percent : Nat → Nat → String) (label : String) (pass total : Nat) : String :=
  label ++ toString pass ++ "/" ++ toString total ++ " checks passed (" ++ percent pass total ++ "%)"

/-- The main part of the script: every line it logs, in order.  `percent a b`
stands for the text of `Math.round(a/b*100)`, a floating-point computation
that is left to the caller. -/
def mainLogs (percent : Nat → Nat → String) (fs : FileSystem) : List String :=
  let phase1 := verifyPhase1 fs
  let phase2 := verifyPhase2 fs
  ["=== PHASE 1 & 2 VERIFICATION RESULTS ===\n",
   "PHASE 1: Core Services Implementation", "--------------------------------------"] ++
  phase1.map checkLine ++
  ["\nPHASE 2: Service Container Fixes", "----------------------------------"] ++
  phase2.map checkLine ++
  ["\n=== SUMMARY ===",
   summaryLine percent "Phase 1: " (passCount phase1) phase1.length,
   summaryLine percent "Phase 2: " (passCount phase2) phase2.length,
   summaryLine percent "\nOVERALL: " (totalPass fs) (total fs),
   if totalPass fs == total fs then successMessage else failureMessage]

end VerifyPhases12

/-! ## The service container

The container the scripts interrogate (`container.register`, `container.get`,
`container.getHealthStatus`) is defined in `AA_Container.gs`, which is not among
the source files.  This section models it from the specification. -/

/-- Modelled from the spec: one action of a factory body, the code of the
factories being absent.  A factory may call back into the container
(`get id`) and may throw (`fail`). -/
inductive Step where
  | get (id : String) : Step
  | fail : Step
  deriving DecidableEq, Repr

/-- Modelled from the spec: what `get` hands out, the container being absent:
the singleton of an identifier, or the deferred handle (a forwarding reference
that looks the singleton up when it is dereferenced). -/
inductive Handle where
  | resolved (id : String) : Handle
  | deferred (id : String) : Handle
  deriving DecidableEq, Repr

/-- Modelled from the spec: a service instance as the container sees it, the
services being absent: the identifier it was built for and the handles its
factory obtained, in order. -/
structure Instance where
  id : String
  injected : List Handle
  deriving DecidableEq, Repr

/-- Modelled from the spec: the error taxonomy of section 7.  `factoryFailure`
is the failure a factory body raises itself, which `serviceConstructionError`
wraps; `outOfFuel` is not a JavaScript error: it marks a resolution cut off by
the recursion bound of `getFuel`. -/
inductive ContainerError where
  | registrationError (id : String) : ContainerError
  | serviceNotFoundError (id : String) : ContainerError
  | serviceConstructionError (id : String) (cause : ContainerError) : ContainerError
  | circularResolutionError (id : String) : ContainerError
  | factoryFailure : ContainerError
  | outOfFuel : ContainerError
  deriving DecidableEq, Repr

/-- Modelled from the spec: the resolution marker of the instance cache
together with the cached instance or the cached failure. -/
inductive Slot where
  | notStarted : Slot
  | inProgress : Slot
  | completed (inst : Instance) : Slot
  | failed (cause : ContainerError) : Slot
  deriving DecidableEq, Repr

/-- Modelled from the spec: the registration entry of section 3: identifier,
factory, declared dependencies (diagnostics only) and the cached instance slot. -/
structure Entry where
  id : String
  factory : List Step
  dependencies : List String
  slot : Slot
  deriving DecidableEq, Repr

/-- Modelled from the spec: the container state: the registry, and the
identifiers whose factory has been invoked, most recent first (kept to count
constructions). -/
structure Container where
  entries : List Entry
  invocations : List String
  deriving DecidableEq, Repr

namespace Container

/-- Modelled from the spec: the container before any registration. -/
def empty : Container := { entries := [], invocations := [] }

/-- Modelled from the spec: the registration entry of an identifier. -/
def lookup (c : Container) (id : String) : Option Entry :=
  c.entries.find? fun e => e.id == id

/-- Modelled from the spec: writes the cached instance slot of an identifier. -/
def setSlot (c : Container) (id : String) (s : Slot) : Container :=
  { c with entries := c.entries.map fun e => if e.id = id then { e with slot := s } else e }

/-- Modelled from the spec: `register(identifier, factory, dependencies?)`:
creates the entry without invoking the factory; a `RegistrationError` for an
empty identifier and for one that is registered already. -/
def register (c : Container) (id : String) (factory : List Step) (dependencies : List String) :
    Except ContainerError Container :=
  if id = "" then .error (.registrationError id)
  else if (c.lookup id).isSome then .error (.registrationError id)
  else .ok { c with entries := c.entries ++ [{ id, factory, dependencies, slot := .notStarted }] }

/-- Modelled from the spec: runs a factory body: each `get` goes through the
container (`resolve`), a failure of it or a `fail` ends the body with that
failure, and the body returns the handles obtained. -/
def runBody (resolve : Container → String → Container × Except ContainerError Handle) :
    Container → List Step → List Handle → Container × Except ContainerError (List Handle)
  | c, [], acc => (c, .ok acc.reverse)
  | c, .fail :: _, _ => (c, .error .factoryFailure)
  | c, .get d :: rest, acc =>
    match resolve c d with
    | (c1, .ok h) => runBody resolve c1 rest (h :: acc)
    | (c1, .error err) => (c1, .error err)

/-- Modelled from the spec: the resolution algorithm of `get(identifier)` with
a bound on the depth of nested resolutions.  An unregistered identifier is a
`ServiceNotFoundError`; a completed one returns its singleton; a failed one
fails fast with the cached `ServiceConstructionError`; one in progress returns
the deferred handle; one not started is marked in progress, its factory is
invoked, and the outcome is cached. -/
def getFuel : Nat → Container → String → Container × Except ContainerError Handle
  | 0, c, _ => (c, .error .outOfFuel)
  | fuel + 1, c, id =>
    match c.lookup id with
    | none => (c, .error (.serviceNotFoundError id))
    | some e =>
      match e.slot with
      | .completed _ => (c, .ok (.resolved id))
      | .failed cause => (c, .error (.serviceConstructionError id cause))
      | .inProgress => (c, .ok (.deferred id))
      | .notStarted =>
        let c1 := { c.setSlot id .inProgress with invocations := id :: c.invocations }
        match runBody (getFuel fuel) c1 e.factory [] with
        | (c2, .ok handles) =>
          (c2.setSlot id (.completed { id, injected := handles }), .ok (.resolved id))
        | (c2, .error .outOfFuel) => (c2, .error .outOfFuel)
        | (c2, .error cause) =>
          (c2.setSlot id (.failed cause), .error (.serviceConstructionError id cause))

/-- Modelled from the spec: `get(identifier)`.  Every nested resolution marks
one more entry in progress, so a depth of one more than the number of entries
is never exceeded. -/
def get (c : Container) (id : String) : Container × Except ContainerError Handle :=
  getFuel (c.entries.length + 1) c id

/-- Modelled from the spec: dereferences a handle: the singleton it stands for,
once that is completed. -/
def deref (c : Container) : Handle → Option Instance
  | .resolved id | .deferred id =>
    match c.lookup id with
    | some { slot := .completed inst, .. } => some inst
    | _ => none

/-- Modelled from the spec: `reset(identifier?)`: clears the cached slot of one
identifier, or of all, and keeps the entries. -/
def reset (c : Container) : Option String → Container
  | some id => c.setSlot id .notStarted
  | none => { c with entries := c.entries.map fun e => { e with slot := .notStarted } }

/-- Modelled from the spec: the per-identifier state of a health record. -/
inductive ServiceState where
  | constructed : ServiceState
  | pending : ServiceState
  | failed : ServiceState
  deriving DecidableEq, Repr

/-- Modelled from the spec: the health record of section 3. -/
structure HealthRecord where
  status : String
  services : List (String × ServiceState)
  registered : Nat
  resolved : Nat
  failed : Nat
  deriving DecidableEq, Repr

/-- Modelled from the spec: the state a slot is reported as. -/
def Slot.state : Slot → ServiceState
  | .completed _ => .constructed
  | .failed _ => .failed
  | _ => .pending

/-- Modelled from the spec: `getHealthStatus()`: a snapshot computed from the
registry; cached failures are reported, not raised. -/
def getHealthStatus (c : Container) : HealthRecord :=
  let services := c.entries.map fun e => (e.id, Slot.state e.slot)
  let failed := (services.filter fun s => s.2 = .failed).length
  { status := if failed = 0 then "healthy" else "degraded"
    services := services
    registered := c.entries.length
    resolved := (services.filter fun s => s.2 = .constructed).length
    failed := failed }

/-- Modelled from the spec: the health record as the JavaScript object
`validateLoadOrder` receives. -/
def HealthRecord.toJs (h : HealthRecord) : JsVal :=
  .obj [("status", .str h.status), ("registered", .num h.registered),
        ("resolved", .num h.resolved), ("failed", .num h.failed)]

/-- Modelled from the spec: the container as the global `container` of the
scripts: an object whose `getHealthStatus` returns the health record. -/
def toJs (c : Container) : JsVal :=
  .obj [("getHealthStatus", .func [] (getHealthStatus c).toJs false)]

/-- Modelled from the spec: the calls a client makes, for stating properties
over every sequence of them. -/
inductive Op where
  | register (id : String) (factory : List Step) (dependencies : List String) : Op
  | get (id : String) : Op
  deriving DecidableEq, Repr

/-- Modelled from the spec: the container after one call (a call that fails
with a `RegistrationError` leaves it as it was). -/
def step (c : Container) : Op → Container
  | .register id factory dependencies =>
    match c.register id factory dependencies with
    | .ok c1 => c1
    | .error _ => c
  | .get id => (c.get id).1

/-- Modelled from the spec: the container after a sequence of calls. -/
def run (c : Container) (ops : List Op) : Container :=
  ops.foldl step c

/-- Modelled from the spec: how often the factory of an identifier has run. -/
def constructions (c : Container) (id : String) : Nat :=
  c.invocations.count id

end Container

/-! ## Environments used as concrete inputs -/

/-- A method: a function without properties of interest that returns `undefined`. -/
def aMethod : JsVal := func [] undefined false

/-- A class (constructor function) whose prototype carries the given methods. -/
def aClass (methods : List String) : JsVal :=
  func [("prototype", obj (methods.map fun m => (m, aMethod)))] undefined false

/-- The `SERVICES` table mapping the two Phase 2 identifiers to themselves. -/
def servicesTable : JsVal :=
  obj [("BusinessLogicValidation", str "BusinessLogicValidation"),
       ("AuditProtocol", str "AuditProtocol")]

/-- A global scope with a complete Phase 2 implementation: the `SERVICES`
table and both service classes with every method the scripts probe. -/
def phase2Env : Env where
  lexical :=
    [("SERVICES", servicesTable),
     ("BusinessLogicValidation", aClass ["validateTaskCreation", "validateStateTransition",
        "validateScheduleConflict", "validatePriority", "selfTest"]),
     ("AuditProtocol", aClass ["logAuditEvent", "getAuditTrail", "generateAuditReport",
        "_determineSeverity", "_flushAuditCache", "selfTest"])]
  globalObject := []

/-- A global scope whose four constant tables are the usual string-valued
enumerations. -/
def constantsEnv : Env where
  lexical :=
    [("STATUS", obj [("PENDING", str "PENDING"), ("IN_PROGRESS", str "IN_PROGRESS"),
        ("COMPLETED", str "COMPLETED")]),
     ("PRIORITY", obj [("HIGH", str "HIGH"), ("MEDIUM", str "MEDIUM"), ("LOW", str "LOW")]),
     ("LANE", obj [("OPS", str "ops")]),
     ("SHEET_NAMES", obj [("ACTIVITY", str "Activity")])]
  globalObject := []

namespace VerifyPhases12

/-- A file system on which every read fails. -/
def noFiles : FileSystem where
  readFileSync := fun _ => none
  existsSync := fun _ => false

/-- A source text in which every string the two functions look for occurs,
and neither `// STUB:` nor `return {};` does. -/
def completeSource : String :=
  "buildColumnMap getColumnIndex getValue setValue createEmptyRow validateRow mapRowToObject mapObjectToRow\n" ++
  "_calculateActiveHours() _calculateTotalAvailableHours() _persistLearningData( _generateRecommendation(\n" ++
  "DEPENDENCIES: 'Dependencies' BusinessLogicValidation: 'BusinessLogicValidation' AuditProtocol: 'AuditProtocol'\n" ++
  "validateTaskCreation( validateStateTransition( validateScheduleConflict( selfTest()\n" ++
  "logAuditEvent( getAuditTrail( generateAuditReport( _flushAuditCache(\n" ++
  "container.register(\n    SERVICES.BusinessLogicValidation container.register(\n    SERVICES.AuditProtocol\n" ++
  "engine.setTriageEngine = () => container.get(SERVICES.ZeroTrustTriageEngine)"

/-- A file system on which every target file exists and holds `completeSource`. -/
def completeFiles : FileSystem where
  readFileSync := fun _ => some completeSource
  existsSync := fun _ => true

end VerifyPhases12

/-! ## Predicates, invariants and scenarios used in the statements -/

namespace ValidateLoadOrder

/-- The test `typeof name !== 'undefined'` of Tests 1 to 4. -/
def defined (env : Env) (name : String) : Bool :=
  env.typeofIdent name != "undefined"

/-- The identifier is bound to `null`. -/
def isNull (env : Env) (name : String) : Bool :=
  match env.resolve name with
  | some null => true
  | _ => false

/-- The test `typeof this[name] === 'function'` of Tests 5 and 7. -/
def globalFunction (env : Env) (name : String) : Bool :=
  (env.thisProp name).typeof == "function"

/-- The call `container.getHealthStatus()` taken alone: what it returns or
throws, when `container` is declared. -/
def healthCall (env : Env) : Option (Except JsVal JsVal) :=
  (env.resolve "container").map fun c => callMethod c "getHealthStatus"

/-- The call `container.getHealthStatus()` returns without throwing. -/
def healthStatusReturns (env : Env) : Bool :=
  match healthCall env with
  | some (.ok _) => true
  | _ => false

/-- The call `container.getHealthStatus()` returns a value other than
`undefined` and `null`. -/
def healthRecordReturned (env : Env) : Bool :=
  match healthCall env with
  | some (.ok undefined) => false
  | some (.ok null) => false
  | some (.ok _) => true
  | _ => false

/-- The call `container.getHealthStatus()` throws `undefined` or `null`. -/
def healthCallThrowsNullish (env : Env) : Bool :=
  match healthCall env with
  | some (.error undefined) => true
  | some (.error null) => true
  | _ => false

/-- The seven tests in the words of the load-order contract: the four globals
are defined, the five remote-control names and the five error classes are
functions on the global object, and `container.getHealthStatus()` returns
without throwing. -/
def sevenTestsPass (env : Env) : Bool :=
  defined env "container" && defined env "CONSTANTS" && defined env "SERVICES" &&
  defined env "STATUS" && remoteControlFunctions.all (globalFunction env) &&
  healthStatusReturns env && errorClasses.all (globalFunction env)

/-- The global scopes in which `validateLoadOrder` throws: the checks reach a
`CONSTANTS`, `SERVICES` or `STATUS` that is `null`, whose property is read for
the log line, or a `getHealthStatus()` that throws `undefined` or `null`, whose
`message` the `catch` block reads. -/
def throwsIn (env : Env) : Bool :=
  defined env "container" && defined env "CONSTANTS" &&
  (isNull env "CONSTANTS" ||
    (defined env "SERVICES" &&
      (isNull env "SERVICES" ||
        (defined env "STATUS" && (isNull env "STATUS" || healthCallThrowsNullish env)))))

/-- A health record as `getHealthStatus()` returns it. -/
def healthyRecord : JsVal := obj [("status", str "healthy")]

/-- A global scope in which everything `validateLoadOrder` looks at is loaded;
`healthStatus` is what `container.getHealthStatus()` returns and `constants`
the value of `CONSTANTS`. -/
def loadedEnv (healthStatus constants : JsVal) : Env where
  lexical :=
    [("container", obj [("getHealthStatus", func [] healthStatus false)]),
     ("CONSTANTS", constants),
     ("SERVICES", obj [("SmartLogger", str "SmartLogger")])]
  globalObject := (remoteControlFunctions ++ errorClasses).map fun n => (n, aMethod)

end ValidateLoadOrder

namespace Container

/-- The factory of an identifier has not been started: the identifier is
unregistered, or its slot is `notStarted`. -/
def Unstarted (c : Container) (id : String) : Prop :=
  ∀ e, c.lookup id = some e → e.slot = .notStarted

/-- The invariant behind at-most-once construction: a factory that has not
been started has not run, and no factory has run twice. -/
def AtMostOnce (c : Container) : Prop :=
  ∀ id, (c.Unstarted id → c.constructions id = 0) ∧ c.constructions id ≤ 1

/-- The number of entries whose slot is `notStarted`: a bound on the depth of
nested resolutions still possible. -/
def pendingCount (c : Container) : Nat :=
  c.entries.countP fun e => e.slot = .notStarted

/-- The identifiers of the registry, in registration order. -/
def ids (c : Container) : List String :=
  c.entries.map fun e => e.id

/-- The container after `get(A)` has resolved the cycle `A → B → A`: both
slots went through `inProgress` and are completed, `B` first. -/
def afterPair (c : Container) (A B : String) : Container :=
  { (((c.setSlot A .inProgress).setSlot B .inProgress).setSlot B
        (.completed { id := B, injected := [.deferred A] })).setSlot A
        (.completed { id := A, injected := [.resolved B] }) with
    invocations := B :: A :: c.invocations }

/-- A registration call from its three arguments. -/
def Op.ofRegistration (r : String × List Step × List String) : Op :=
  .register r.1 r.2.1 r.2.2

/-- No slot of the registry has left `notStarted`. -/
def Untouched (c : Container) : Prop :=
  ∀ e ∈ c.entries, e.slot = .notStarted

/-- The scenario "Bad": one service whose factory throws. -/
def badContainer : Container :=
  empty.run [.register "Bad" [.fail] []]

/-- The entry of `A` in the scenario of two services that need each other. -/
def entryA : Entry := { id := "A", factory := [.get "B"], dependencies := ["B"], slot := .notStarted }

/-- The entry of `B` in the scenario of two services that need each other. -/
def entryB : Entry := { id := "B", factory := [.get "A"], dependencies := ["A"], slot := .notStarted }

/-- The scenario of two services that need each other, after registration. -/
def pairContainer : Container :=
  empty.run [.register "A" [.get "B"] ["B"], .register "B" [.get "A"] ["A"]]

/-- A global scope whose `container` is the service container in state `c`. -/
def envOf (c : Container) : Env where
  lexical := [("container", c.toJs)]
  globalObject := []

end Container

/-! ## Basic facts about values -/

theorem strictEqStr_eq_true {v : JsVal} {lit : String} :
    v.strictEqStr lit = true ↔ v = str lit := by
  cases v <;> simp [strictEqStr]

/-! ## Claims on the Phase 2 scripts -/

/-- C1 (code defect).  On the complete Phase 2 implementation `phase2Env`
(`SERVICES` maps both identifiers to their own names, both classes are
functions and their prototypes carry every listed method), `verifyPhase2` of
`verifyPhase2.js` returns `false`: `servicesEnum` is the string
`'AuditProtocol'` and the two method chains are functions, none of them
`=== true`. -/
theorem verifyPhase2_false_on_complete_phase2 :
    phase2Env.member "SERVICES" "BusinessLogicValidation" = .ok (str "BusinessLogicValidation") ∧
    phase2Env.member "SERVICES" "AuditProtocol" = .ok (str "AuditProtocol") ∧
    phase2Env.typeofIdent "BusinessLogicValidation" = "function" ∧
    phase2Env.typeofIdent "AuditProtocol" = "function" ∧
    (∀ m ∈ ["validateTaskCreation", "validateStateTransition", "validateScheduleConflict",
        "selfTest"], phase2Env.protoMember "BusinessLogicValidation" m = .ok aMethod) ∧
    (∀ m ∈ ["logAuditEvent", "getAuditTrail", "generateAuditReport", "selfTest"],
        phase2Env.protoMember "AuditProtocol" m = .ok aMethod) ∧
    VerifyPhase2Js.servicesEnum phase2Env = .ok (str "AuditProtocol") ∧
    VerifyPhase2Js.verifyPhase2 phase2Env = .ok false := by
  refine ⟨rfl, rfl, rfl, rfl, ?_, ?_, rfl, rfl⟩
  · intro m hm
    simp only [List.mem_cons, List.mem_singleton, List.not_mem_nil, or_false] at hm
    rcases hm with rfl | rfl | rfl | rfl <;> rfl
  · intro m hm
    simp only [List.mem_cons, List.mem_singleton, List.not_mem_nil, or_false] at hm
    rcases hm with rfl | rfl | rfl | rfl <;> rfl

/-- C2 (code defect).  On `constantsEnv` the constants block of
`runPhase2Verification` completes without an exception, each of its four
checks is truthy and is logged as VALID, and yet `results.all_constants_valid`
is `false`: three of the four values are strings, not `true`. -/
theorem all_constants_valid_false_on_valid_constants :
    Phase2FinalVerification.constantsValid constantsEnv =
      .ok [str "COMPLETED", str "LOW", bool true, str "Activity"] ∧
    (∀ v ∈ [str "COMPLETED", str "LOW", bool true, str "Activity"], v.truthy = true) ∧
    (∀ line ∈ ["✓ STATUS enum: ✅ VALID", "✓ PRIORITY enum: ✅ VALID", "✓ LANE enum: ✅ VALID",
        "✓ SHEET_NAMES: ✅ VALID"],
      line ∈ (Phase2FinalVerification.runPhase2Verification constantsEnv).logs) ∧
    (Phase2FinalVerification.runPhase2Verification constantsEnv).results.all_constants_valid =
      false := by
  refine ⟨rfl, by decide, ?_, rfl⟩
  decide

/-- C3.  In `runPhase2Verification` and in `verifyPhase2Complete` the Task 1
flag is `true` exactly when the reads `SERVICES.BusinessLogicValidation` and
`SERVICES.AuditProtocol` both succeed and yield the strings
`'BusinessLogicValidation'` and `'AuditProtocol'`; in every other global scope
(`SERVICES` undeclared, `undefined` or `null`, an entry missing or different)
it is `false`. -/
theorem task1_true_iff_services_self_mapping (env : Env) :
    ((Phase2FinalVerification.runPhase2Verification env).results.task1_services_enum = true ↔
      env.member "SERVICES" "BusinessLogicValidation" = .ok (str "BusinessLogicValidation") ∧
      env.member "SERVICES" "AuditProtocol" = .ok (str "AuditProtocol")) ∧
    ((VerifyPhase2Complete.verifyPhase2Complete env).details.task1 = true ↔
      env.member "SERVICES" "BusinessLogicValidation" = .ok (str "BusinessLogicValidation") ∧
      env.member "SERVICES" "AuditProtocol" = .ok (str "AuditProtocol")) := by
  constructor
  · simp only [Phase2FinalVerification.runPhase2Verification, Phase2FinalVerification.task1,
      Phase2FinalVerification.servicesEntries]
    cases h1 : env.member "SERVICES" "BusinessLogicValidation" with
    | error e => simp [bind, Except.bind]
    | ok a =>
      cases h2 : env.member "SERVICES" "AuditProtocol" with
      | error e => simp [bind, Except.bind]
      | ok b => simp [bind, Except.bind, pure, Except.pure, strictEqStr_eq_true]
  · simp only [VerifyPhase2Complete.verifyPhase2Complete, VerifyPhase2Complete.task1,
      VerifyPhase2Complete.servicesEntries]
    cases h1 : env.member "SERVICES" "BusinessLogicValidation" with
    | error e => simp [bind, Except.bind]
    | ok a =>
      cases h2 : env.member "SERVICES" "AuditProtocol" with
      | error e => simp [bind, Except.bind]
      | ok b =>
        by_cases h : (a.strictEqStr "BusinessLogicValidation" && b.strictEqStr "AuditProtocol") = true
        · simp only [bind, Except.bind, pure, Except.pure, h, if_true]
          simpa [strictEqStr_eq_true] using h
        · simp only [bind, Except.bind, pure, Except.pure, h, if_false]
          simpa [strictEqStr_eq_true] using h

/-- C4 (code defect).  Task 4 reads no file: in every global scope
`runPhase2Verification` leaves `task4_service_registrations` and
`verifyPhase2Complete` leaves `details.task4` at `true`, so no input makes
either of them `false`. -/
theorem task4_always_true (env : Env) :
    (Phase2FinalVerification.runPhase2Verification env).results.task4_service_registrations =
      true ∧
    (VerifyPhase2Complete.verifyPhase2Complete env).details.task4 = true :=
  ⟨rfl, rfl⟩


/-! ## Claims on `verify_phases_1_2.js` -/

namespace VerifyPhases12

theorem passCount_le (l : List (String × Bool)) : passCount l ≤ l.length := by
  unfold passCount
  exact List.length_filter_le _ _

theorem passCount_eq_length_iff (l : List (String × Bool)) :
    passCount l = l.length ↔ ∀ kv ∈ l, kv.2 = true := by
  unfold passCount
  rw [List.filter_length_eq_length]
  simp

theorem totalPass_eq_total_iff (fs : FileSystem) :
    totalPass fs = total fs ↔ ∀ kv ∈ verifyPhase1 fs ++ verifyPhase2 fs, kv.2 = true := by
  have h1 := passCount_le (verifyPhase1 fs)
  have h2 := passCount_le (verifyPhase2 fs)
  have e1 := passCount_eq_length_iff (verifyPhase1 fs)
  have e2 := passCount_eq_length_iff (verifyPhase2 fs)
  unfold totalPass total
  constructor
  · intro h kv hkv
    rcases List.mem_append.1 hkv with hk | hk
    · exact e1.1 (by omega) kv hk
    · exact e2.1 (by omega) kv hk
  · intro h
    have a1 := e1.2 fun kv hk => h kv (List.mem_append.2 (Or.inl hk))
    have a2 := e2.2 fun kv hk => h kv (List.mem_append.2 (Or.inr hk))
    omega

theorem totalPass_le_total (fs : FileSystem) : totalPass fs ≤ total fs := by
  have h1 := passCount_le (verifyPhase1 fs)
  have h2 := passCount_le (verifyPhase2 fs)
  unfold totalPass total
  omega

theorem checkLine_ne_success (kv : String × Bool) : checkLine kv ≠ successMessage := by
  intro h
  have := congrArg String.data h
  simp [successMessage, checkLine, String.data_append] at this

theorem summaryLine_ne_success (percent : Nat → Nat → String) (a b : Nat) (label : String)
    (hl : label = "Phase 1: " ∨ label = "Phase 2: " ∨ label = "\nOVERALL: ") :
    summaryLine percent label a b ≠ successMessage := by
  intro h
  have := congrArg String.data h
  rcases hl with rfl | rfl | rfl <;>
    simp [successMessage, summaryLine, String.data_append] at this

theorem success_mem_mainLogs_iff (percent : Nat → Nat → String) (fs : FileSystem) :
    successMessage ∈ mainLogs percent fs ↔ totalPass fs = total fs := by
  have hf : failureMessage ≠ successMessage := by decide
  have n1 := summaryLine_ne_success percent (passCount (verifyPhase1 fs))
    (verifyPhase1 fs).length "Phase 1: " (Or.inl rfl)
  have n2 := summaryLine_ne_success percent (passCount (verifyPhase2 fs))
    (verifyPhase2 fs).length "Phase 2: " (Or.inr (Or.inl rfl))
  have n3 := summaryLine_ne_success percent (totalPass fs) (total fs) "\nOVERALL: "
    (Or.inr (Or.inr rfl))
  have c1 : successMessage ∉ (verifyPhase1 fs).map checkLine := by
    intro h
    obtain ⟨kv, _, hk⟩ := List.mem_map.1 h
    exact checkLine_ne_success kv hk
  have c2 : successMessage ∉ (verifyPhase2 fs).map checkLine := by
    intro h
    obtain ⟨kv, _, hk⟩ := List.mem_map.1 h
    exact checkLine_ne_success kv hk
  have d1 : successMessage ≠ "=== PHASE 1 & 2 VERIFICATION RESULTS ===\n" := by decide
  have d2 : successMessage ≠ "PHASE 1: Core Services Implementation" := by decide
  have d3 : successMessage ≠ "--------------------------------------" := by decide
  have d4 : successMessage ≠ "\nPHASE 2: Service Container Fixes" := by decide
  have d5 : successMessage ≠ "----------------------------------" := by decide
  have d6 : successMessage ≠ "\n=== SUMMARY ===" := by decide
  unfold mainLogs
  by_cases h : totalPass fs = total fs
  · simp [h]
  · simp [h, c1, c2, d1, d2, d3, d4, d5, d6, Ne.symm n1, Ne.symm n2, Ne.symm n3, Ne.symm hf]

theorem failed_read_leaves_false (fs : FileSystem) (p : String) (hp : p ∈ targetPaths)
    (h : fs.readFileSync p = none) :
    ∃ kv ∈ verifyPhase1 fs ++ verifyPhase2 fs, kv.2 = false := by
  simp only [targetPaths, List.mem_cons, List.mem_singleton, List.not_mem_nil, or_false] at hp
  rcases hp with rfl | rfl | rfl | rfl | rfl | rfl | rfl
  · exact ⟨("safeColumnExists", false), by simp [verifyPhase1, h], rfl⟩
  · exact ⟨("stubRemoved", false), by simp [verifyPhase1, h], rfl⟩
  · exact ⟨("learningImplemented", false), by simp [verifyPhase1, h], rfl⟩
  · exact ⟨("dependenciesSheet", false), by simp [verifyPhase1, h], rfl⟩
  · exact ⟨("businessLogicExists", false), by simp [verifyPhase2, h], rfl⟩
  · exact ⟨("auditProtocolExists", false), by simp [verifyPhase2, h], rfl⟩
  · exact ⟨("businessLogicRegistered", false), by simp [verifyPhase2, h], rfl⟩

theorem lengths_of_reads (fs : FileSystem)
    (h : ∀ p ∈ targetPaths, (fs.readFileSync p).isSome = true) :
    (verifyPhase1 fs).length = 9 ∧ (verifyPhase2 fs).length = 15 := by
  simp only [targetPaths, List.mem_cons, List.mem_singleton, List.not_mem_nil, or_false,
    forall_eq_or_imp, forall_eq, Option.isSome_iff_exists] at h
  obtain ⟨⟨a, ha⟩, ⟨b, hb⟩, ⟨c, hc⟩, ⟨d, hd⟩, ⟨e, he⟩, ⟨f, hf⟩, ⟨g, hg⟩⟩ := h
  simp [verifyPhase1, verifyPhase2, ha, hb, hc, hd, he, hf, hg]

end VerifyPhases12

/-- C6.  The script logs the success line exactly when every one of the
seven target files is read and all 24 checks (9 of `verifyPhase1`, 15 of
`verifyPhase2`) are `true`; and when a target file cannot be read then
`totalPass < total` and the success line is not logged. -/
theorem success_logged_iff_all_reads_and_checks (percent : Nat → Nat → String)
    (fs : VerifyPhases12.FileSystem) :
    (VerifyPhases12.successMessage ∈ VerifyPhases12.mainLogs percent fs ↔
      (∀ p ∈ VerifyPhases12.targetPaths, (fs.readFileSync p).isSome = true) ∧
      (VerifyPhases12.verifyPhase1 fs).length = 9 ∧
      (VerifyPhases12.verifyPhase2 fs).length = 15 ∧
      ∀ kv ∈ VerifyPhases12.verifyPhase1 fs ++ VerifyPhases12.verifyPhase2 fs, kv.2 = true) ∧
    ((∃ p ∈ VerifyPhases12.targetPaths, fs.readFileSync p = none) →
      VerifyPhases12.totalPass fs < VerifyPhases12.total fs ∧
      VerifyPhases12.successMessage ∉ VerifyPhases12.mainLogs percent fs) := by
  have key : (∃ p ∈ VerifyPhases12.targetPaths, fs.readFileSync p = none) →
      VerifyPhases12.totalPass fs ≠ VerifyPhases12.total fs := by
    rintro ⟨p, hp, hnone⟩ heq
    obtain ⟨kv, hkv, hfalse⟩ := VerifyPhases12.failed_read_leaves_false fs p hp hnone
    have := (VerifyPhases12.totalPass_eq_total_iff fs).1 heq kv hkv
    rw [hfalse] at this
    cases this
  constructor
  · rw [VerifyPhases12.success_mem_mainLogs_iff, VerifyPhases12.totalPass_eq_total_iff]
    constructor
    · intro hall
      have hreads : ∀ p ∈ VerifyPhases12.targetPaths, (fs.readFileSync p).isSome = true := by
        intro p hp
        cases hr : fs.readFileSync p with
        | some c => rfl
        | none =>
          exact absurd ((VerifyPhases12.totalPass_eq_total_iff fs).2 hall) (key ⟨p, hp, hr⟩)
      exact ⟨hreads, (VerifyPhases12.lengths_of_reads fs hreads).1,
        (VerifyPhases12.lengths_of_reads fs hreads).2, hall⟩
    · exact fun h => h.2.2.2
  · intro h
    have hne := key h
    have hle := VerifyPhases12.totalPass_le_total fs
    refine ⟨by omega, ?_⟩
    rw [VerifyPhases12.success_mem_mainLogs_iff]
    exact hne

/-- C6, at two file systems: without any of the target files nothing passes
and the success line is not logged; with every target file holding
`completeSource` the success line is logged. -/
theorem success_logged_iff_all_reads_and_checks_witness :
    (VerifyPhases12.totalPass VerifyPhases12.noFiles <
        VerifyPhases12.total VerifyPhases12.noFiles ∧
      VerifyPhases12.successMessage ∉
        VerifyPhases12.mainLogs (fun _ _ => "0") VerifyPhases12.noFiles) ∧
    VerifyPhases12.successMessage ∈
      VerifyPhases12.mainLogs (fun _ _ => "100") VerifyPhases12.completeFiles :=
  ⟨(success_logged_iff_all_reads_and_checks (fun _ _ => "0") VerifyPhases12.noFiles).2
      ⟨VerifyPhases12.safeColumnPath, by simp [VerifyPhases12.targetPaths], rfl⟩,
   (success_logged_iff_all_reads_and_checks (fun _ _ => "100") VerifyPhases12.completeFiles).1.2
      (by set_option maxRecDepth 100000 in decide)⟩

/-! ## Claims on the summary of `runPhase2Verification` -/

namespace Phase2FinalVerification

theorem passedCount_eq_count (r : Results) : passedCount r = r.values.count true := by
  obtain ⟨a, b, c, d, e⟩ := r
  cases a <;> cases b <;> cases c <;> cases d <;> cases e <;> rfl

theorem not_prefix_of_head {line : String} (h : line.data.head? ≠ some 'P') :
    ¬ "Passed: ".data <+: line.data := by
  intro hp
  obtain ⟨t, ht⟩ := hp
  apply h
  rw [← ht]
  rfl

theorem task1_head (env : Env) : ∀ line ∈ (task1 env).1, line.data.head? ≠ some 'P' := by
  intro line hl
  unfold task1 at hl
  split at hl
  · simp only [List.mem_cons, List.mem_singleton, List.not_mem_nil, or_false] at hl
    rcases hl with rfl | rfl | rfl <;> simp [String.data_append]
  · simp only [List.mem_singleton] at hl
    subst hl
    simp [String.data_append]

theorem serviceTask_head (env : Env) (task cls : String) (methods : List String) :
    ∀ line ∈ (serviceTask env task cls methods).1, line.data.head? ≠ some 'P' := by
  intro line hl
  unfold serviceTask at hl
  simp only at hl
  split at hl
  · split at hl
    · simp only [List.mem_append, List.mem_cons, List.mem_singleton, List.not_mem_nil, or_false,
        List.mem_map] at hl
      rcases hl with (rfl | ⟨kv, _, rfl⟩) | rfl <;> simp [String.data_append]
    · simp only [List.mem_append, List.mem_cons, List.mem_singleton, List.not_mem_nil,
        or_false] at hl
      rcases hl with rfl | rfl <;> simp [String.data_append]
  · simp only [List.mem_append, List.mem_cons, List.mem_singleton, List.not_mem_nil,
      or_false] at hl
    rcases hl with rfl | rfl <;> simp [String.data_append]

theorem constantsValid_length (env : Env) (vals : List JsVal)
    (h : constantsValid env = .ok vals) : ∃ a b c d, vals = [a, b, c, d] := by
  unfold constantsValid at h
  simp only [bind, Except.bind, pure, Except.pure] at h
  split at h
  · cases h
  · split at h
    · cases h
    · split at h
      · cases h
      · split at h
        · cases h
        · cases h
          exact ⟨_, _, _, _, rfl⟩

theorem constants_head (env : Env) : ∀ line ∈ (constants env).1, line.data.head? ≠ some 'P' := by
  intro line hl
  unfold constants at hl
  split at hl
  · rename_i vals hv
    obtain ⟨a, b, c, d, rfl⟩ := constantsValid_length env vals hv
    simp only [constantLabels, List.zipWith, List.mem_append, List.mem_cons, List.mem_singleton,
      List.not_mem_nil, or_false] at hl
    rcases hl with (rfl | rfl | rfl | rfl) | rfl <;> simp [String.data_append]
  · simp only [List.mem_singleton] at hl
    subst hl
    simp [String.data_append]

theorem summaryLogs_prefix (r : Results) :
    ∀ line ∈ summaryLogs r, "Passed: ".data <+: line.data →
      line = "Passed: " ++ toString (r.values.count true) ++ "/" ++ "5" := by
  intro line hl hp
  have h5 : toString r.values.length = "5" := by
    simp only [Results.values, List.length_cons, List.length_nil]; rfl
  simp only [summaryLogs, h5, passedCount_eq_count, List.mem_append, List.mem_cons,
    List.mem_singleton, List.not_mem_nil, or_false, List.mem_map] at hl
  rcases hl with (((rfl | rfl) | ⟨tp, _, rfl⟩) | (rfl | rfl | rfl | rfl)) | hl
  · exact absurd hp (by decide)
  · exact absurd hp (by decide)
  · exact absurd hp (not_prefix_of_head (by cases tp.2 <;> simp [String.data_append]))
  · exact absurd hp (by decide)
  · exact absurd hp (by decide)
  · rfl
  · exact absurd hp (not_prefix_of_head (by simp [String.data_append]))
  · split at hl
    · simp only [List.mem_cons, List.mem_singleton, List.not_mem_nil, or_false] at hl
      rcases hl with rfl | rfl | rfl | rfl | rfl <;> exact absurd hp (by decide)
    · simp only [List.mem_cons, List.mem_singleton, List.not_mem_nil, or_false] at hl
      rcases hl with rfl | rfl <;> exact absurd hp (by decide)


theorem passedLine_mem_summaryLogs (r : Results) :
    "Passed: " ++ toString (r.values.count true) ++ "/" ++ "5" ∈ summaryLogs r := by
  have h5 : toString r.values.length = "5" := by
    simp only [Results.values, List.length_cons, List.length_nil]; rfl
  simp only [summaryLogs, h5, passedCount_eq_count]
  simp

end Phase2FinalVerification

/-- C10.  `runPhase2Verification` returns `success = true` exactly when all
five flags of `results` are `true`; it logs the line `Passed: k/5` with `k` the
number of `true` flags, and logs no other line that starts with `Passed: `;
`success` holds exactly when `k = 5`; and `summary` carries the five flags
under their task labels. -/
theorem runPhase2Verification_success_count_summary (env : Env) :
    ((Phase2FinalVerification.runPhase2Verification env).success = true ↔
      (Phase2FinalVerification.runPhase2Verification env).results.task1_services_enum = true ∧
      (Phase2FinalVerification.runPhase2Verification env).results.task2_business_logic_service =
        true ∧
      (Phase2FinalVerification.runPhase2Verification env).results.task3_audit_protocol_service =
        true ∧
      (Phase2FinalVerification.runPhase2Verification env).results.task4_service_registrations =
        true ∧
      (Phase2FinalVerification.runPhase2Verification env).results.all_constants_valid = true) ∧
    "Passed: " ++
        toString ((Phase2FinalVerification.runPhase2Verification env).results.values.count true) ++
        "/" ++ "5" ∈ (Phase2FinalVerification.runPhase2Verification env).logs ∧
    (∀ line ∈ (Phase2FinalVerification.runPhase2Verification env).logs,
      "Passed: ".data <+: line.data →
      line = "Passed: " ++
        toString ((Phase2FinalVerification.runPhase2Verification env).results.values.count true) ++
        "/" ++ "5") ∧
    ((Phase2FinalVerification.runPhase2Verification env).success = true ↔
      (Phase2FinalVerification.runPhase2Verification env).results.values.count true = 5) ∧
    (Phase2FinalVerification.runPhase2Verification env).summary =
      [("Task 1 (SERVICES Enum)",
          (Phase2FinalVerification.runPhase2Verification env).results.task1_services_enum),
       ("Task 2 (BusinessLogicValidation)",
          (Phase2FinalVerification.runPhase2Verification env).results.task2_business_logic_service),
       ("Task 3 (AuditProtocol)",
          (Phase2FinalVerification.runPhase2Verification env).results.task3_audit_protocol_service),
       ("Task 4 (Service Registrations)",
          (Phase2FinalVerification.runPhase2Verification env).results.task4_service_registrations),
       ("Constants Validation",
          (Phase2FinalVerification.runPhase2Verification env).results.all_constants_valid)] := by
  have hs : (Phase2FinalVerification.runPhase2Verification env).success =
      (Phase2FinalVerification.runPhase2Verification env).results.values.all fun v => v == true :=
    rfl
  have hl : (Phase2FinalVerification.runPhase2Verification env).logs =
      ["🚀 STARTING PHASE 2 FINAL VERIFICATION", "====================================="] ++
      ["\n📋 TASK 1: SERVICES Enum Entries", "--------------------------------"] ++
        (Phase2FinalVerification.task1 env).1 ++
      ["\n🔧 TASK 2: BusinessLogicValidation Service",
       "------------------------------------------"] ++
        (Phase2FinalVerification.serviceTask env "2" "BusinessLogicValidation"
          Phase2FinalVerification.businessLogicMethods).1 ++
      ["\n📊 TASK 3: AuditProtocol Service", "--------------------------------"] ++
        (Phase2FinalVerification.serviceTask env "3" "AuditProtocol"
          Phase2FinalVerification.auditProtocolMethods).1 ++
      ["\n⚙️ TASK 4: Service Registrations", "--------------------------------"] ++
        Phase2FinalVerification.task4.1 ++
      ["\n🔧 CONSTANTS VALIDATION", "------------------------"] ++
        (Phase2FinalVerification.constants env).1 ++
      Phase2FinalVerification.summaryLogs
        (Phase2FinalVerification.runPhase2Verification env).results := rfl
  refine ⟨?_, ?_, ?_, ?_, rfl⟩
  · rw [hs]
    generalize (Phase2FinalVerification.runPhase2Verification env).results = r
    obtain ⟨a, b, c, d, e⟩ := r
    simp [Phase2FinalVerification.Results.values]
  · rw [hl]
    exact List.mem_append_right _ (Phase2FinalVerification.passedLine_mem_summaryLogs _)
  · intro line hmem hp
    rw [hl] at hmem
    simp only [List.mem_append] at hmem
    rcases hmem with ((((((((((h | h) | h) | h) | h) | h) | h) | h) | h) | h) | h) | h
    · simp only [List.mem_cons, List.mem_singleton, List.not_mem_nil, or_false] at h
      rcases h with rfl | rfl <;> exact absurd hp (by decide)
    · simp only [List.mem_cons, List.mem_singleton, List.not_mem_nil, or_false] at h
      rcases h with rfl | rfl <;> exact absurd hp (by decide)
    · exact absurd hp
        (Phase2FinalVerification.not_prefix_of_head (Phase2FinalVerification.task1_head env _ h))
    · simp only [List.mem_cons, List.mem_singleton, List.not_mem_nil, or_false] at h
      rcases h with rfl | rfl <;> exact absurd hp (by decide)
    · exact absurd hp (Phase2FinalVerification.not_prefix_of_head
        (Phase2FinalVerification.serviceTask_head env _ _ _ _ h))
    · simp only [List.mem_cons, List.mem_singleton, List.not_mem_nil, or_false] at h
      rcases h with rfl | rfl <;> exact absurd hp (by decide)
    · exact absurd hp (Phase2FinalVerification.not_prefix_of_head
        (Phase2FinalVerification.serviceTask_head env _ _ _ _ h))
    · simp only [List.mem_cons, List.mem_singleton, List.not_mem_nil, or_false] at h
      rcases h with rfl | rfl <;> exact absurd hp (by decide)
    · simp only [Phase2FinalVerification.task4, List.mem_cons, List.mem_singleton,
        List.not_mem_nil, or_false] at h
      rcases h with rfl | rfl | rfl | rfl <;> exact absurd hp (by decide)
    · simp only [List.mem_cons, List.mem_singleton, List.not_mem_nil, or_false] at h
      rcases h with rfl | rfl <;> exact absurd hp (by decide)
    · exact absurd hp (Phase2FinalVerification.not_prefix_of_head
        (Phase2FinalVerification.constants_head env _ h))
    · exact Phase2FinalVerification.summaryLogs_prefix _ _ h hp
  · rw [hs]
    generalize (Phase2FinalVerification.runPhase2Verification env).results = r
    obtain ⟨a, b, c, d, e⟩ := r
    cases a <;> cases b <;> cases c <;> cases d <;> cases e <;> decide

/-- C10 on `phase2Env`, where four of the five flags are `true`: the logged
line `Passed: 4/5` is the line with the count of `true` flags. -/
theorem runPhase2Verification_success_count_summary_witness :
    "Passed: 4/5" = "Passed: " ++
      toString ((Phase2FinalVerification.runPhase2Verification phase2Env).results.values.count
        true) ++ "/" ++ "5" :=
  (runPhase2Verification_success_count_summary phase2Env).2.2.1 "Passed: 4/5" (by decide)
    (by decide)


/-! ## Claims on `validate_load_order.js` -/

namespace ValidateLoadOrder

theorem member_cases (env : Env) (name key : String) :
    defined env name = false ∨
    (defined env name = true ∧ isNull env name = true ∧ ∃ e, env.member name key = .error e) ∨
    (defined env name = true ∧ isNull env name = false ∧ ∃ v, env.member name key = .ok v) := by
  unfold defined isNull Env.member Env.ident Env.typeofIdent
  cases h : env.resolve name with
  | none => left; simp
  | some v =>
    cases v <;> simp [typeof, getProp, bind, Except.bind]

theorem containerOperations_cases (env : Env) (hd : defined env "container" = true) :
    (containerOperations env = .ok true ∧ healthRecordReturned env = true ∧
      healthCallThrowsNullish env = false) ∨
    (containerOperations env = .ok false ∧ healthRecordReturned env = false ∧
      healthCallThrowsNullish env = false) ∨
    ((∃ e, containerOperations env = .error e) ∧ healthRecordReturned env = false ∧
      healthCallThrowsNullish env = true) := by
  unfold defined Env.typeofIdent at hd
  unfold containerOperations healthProbe healthRecordReturned healthCallThrowsNullish healthCall
    Env.ident
  cases h : env.resolve "container" with
  | none => simp [h] at hd
  | some c =>
    simp only [Option.map_some', bind, Except.bind]
    cases hc : callMethod c "getHealthStatus" with
    | ok r => cases r <;> simp [getProp, mkError]
    | error e =>
      cases e <;> simp [getProp, mkError]

theorem healthStatusReturns_of_record (env : Env) (h : healthRecordReturned env = true) :
    healthStatusReturns env = true := by
  unfold healthRecordReturned at h
  unfold healthStatusReturns
  split at h <;> simp_all

theorem typeofIdent_beq (env : Env) (name : String) :
    (env.typeofIdent name == "undefined") = !defined env name := by
  unfold defined
  cases h : env.typeofIdent name == "undefined" <;> simp [bne, h]

theorem allExist_eq (env : Env) (names : List String) :
    allExist env names = names.all (globalFunction env) := rfl

theorem validateLoadOrder_true_iff (env : Env) :
    validateLoadOrder env = .ok true ↔
      sevenTestsPass env = true ∧ isNull env "CONSTANTS" = false ∧
      isNull env "SERVICES" = false ∧ isNull env "STATUS" = false ∧
      healthRecordReturned env = true := by
  unfold validateLoadOrder sevenTestsPass
  simp only [typeofIdent_beq, allExist_eq]
  cases hc : defined env "container"
  · simp
  rcases member_cases env "CONSTANTS" "VERSION" with h1 | ⟨h1, n1, e1, m1⟩ | ⟨h1, n1, v1, m1⟩
  · simp [h1]
  · simp [h1, n1, m1, bind, Except.bind]
  rcases member_cases env "SERVICES" "SmartLogger" with h2 | ⟨h2, n2, e2, m2⟩ | ⟨h2, n2, v2, m2⟩
  · simp [h1, n1, m1, h2, bind, Except.bind]
  · simp [h1, n1, m1, h2, n2, m2, bind, Except.bind]
  rcases member_cases env "STATUS" "NOT_STARTED" with h3 | ⟨h3, n3, e3, m3⟩ | ⟨h3, n3, v3, m3⟩
  · simp [h1, n1, m1, h2, n2, m2, h3, bind, Except.bind]
  · simp [h1, n1, m1, h2, n2, m2, h3, n3, m3, bind, Except.bind]
  rcases containerOperations_cases env hc with ⟨ho, hr, ht⟩ | ⟨ho, hr, ht⟩ | ⟨⟨e, ho⟩, hr, ht⟩
  · have hs := healthStatusReturns_of_record env hr
    simp [h1, n1, m1, h2, n2, m2, h3, n3, m3, ho, hr, hs, bind, Except.bind]
  · simp [h1, n1, m1, h2, n2, m2, h3, n3, m3, ho, hr, bind, Except.bind]
  · simp [h1, n1, m1, h2, n2, m2, h3, n3, m3, ho, hr, bind, Except.bind]

theorem validateLoadOrder_throws_iff (env : Env) :
    (∃ e, validateLoadOrder env = .error e) ↔ throwsIn env = true := by
  unfold validateLoadOrder throwsIn
  simp only [typeofIdent_beq, allExist_eq]
  cases hc : defined env "container"
  · simp
  rcases member_cases env "CONSTANTS" "VERSION" with h1 | ⟨h1, n1, e1, m1⟩ | ⟨h1, n1, v1, m1⟩
  · simp [h1]
  · simp [h1, n1, m1, bind, Except.bind]
  rcases member_cases env "SERVICES" "SmartLogger" with h2 | ⟨h2, n2, e2, m2⟩ | ⟨h2, n2, v2, m2⟩
  · simp [h1, n1, m1, h2, bind, Except.bind]
  · simp [h1, n1, m1, h2, n2, m2, bind, Except.bind]
  rcases member_cases env "STATUS" "NOT_STARTED" with h3 | ⟨h3, n3, e3, m3⟩ | ⟨h3, n3, v3, m3⟩
  · simp [h1, n1, m1, h2, n2, m2, h3, bind, Except.bind]
  · simp [h1, n1, m1, h2, n2, m2, h3, n3, m3, bind, Except.bind]
  rcases containerOperations_cases env hc with ⟨ho, hr, ht⟩ | ⟨ho, hr, ht⟩ | ⟨⟨e, ho⟩, hr, ht⟩
  · simp [h1, n1, m1, h2, n2, m2, h3, n3, m3, ho, ht, bind, Except.bind]
  · simp [h1, n1, m1, h2, n2, m2, h3, n3, m3, ho, ht, bind, Except.bind]
  · simp [h1, n1, m1, h2, n2, m2, h3, n3, m3, ho, ht, bind, Except.bind]

end ValidateLoadOrder

/-- C5, as stated, fails.  In `loadedEnv healthyRecord null` (everything is
loaded and `CONSTANTS` is `null`) all seven tests as worded pass, and
`validateLoadOrder` returns neither `true` nor `false`: it throws the
`TypeError` of the read `CONSTANTS.VERSION`.  In `loadedEnv undefined (obj [])`
(`getHealthStatus()` returns `undefined` without throwing) all seven tests as
worded pass as well, and `validateLoadOrder` returns `false`. -/
theorem validateLoadOrder_not_iff_seven_tests :
    (ValidateLoadOrder.sevenTestsPass (ValidateLoadOrder.loadedEnv
        ValidateLoadOrder.healthyRecord null) = true ∧
      ValidateLoadOrder.validateLoadOrder (ValidateLoadOrder.loadedEnv
        ValidateLoadOrder.healthyRecord null) =
        .error (mkError "TypeError" "Cannot read properties of null (reading 'VERSION')")) ∧
    (ValidateLoadOrder.sevenTestsPass (ValidateLoadOrder.loadedEnv undefined (obj [])) = true ∧
      ValidateLoadOrder.validateLoadOrder (ValidateLoadOrder.loadedEnv undefined (obj [])) =
        .ok false) :=
  ⟨⟨rfl, rfl⟩, ⟨rfl, rfl⟩⟩

/-- C5, amended.  `validateLoadOrder` returns `true` exactly when the seven
tests pass and, beyond their wording, `CONSTANTS`, `SERVICES` and `STATUS` are
not `null` and `getHealthStatus()` returns a value other than `undefined` and
`null`; it throws exactly in the scopes of `throwsIn`; in every other scope it
returns `false`. -/
theorem validateLoadOrder_outcome (env : Env) :
    (ValidateLoadOrder.validateLoadOrder env = .ok true ↔
      ValidateLoadOrder.sevenTestsPass env = true ∧
      ValidateLoadOrder.isNull env "CONSTANTS" = false ∧
      ValidateLoadOrder.isNull env "SERVICES" = false ∧
      ValidateLoadOrder.isNull env "STATUS" = false ∧
      ValidateLoadOrder.healthRecordReturned env = true) ∧
    ((∃ e, ValidateLoadOrder.validateLoadOrder env = .error e) ↔
      ValidateLoadOrder.throwsIn env = true) ∧
    (ValidateLoadOrder.validateLoadOrder env = .ok false ↔
      ¬(ValidateLoadOrder.sevenTestsPass env = true ∧
        ValidateLoadOrder.isNull env "CONSTANTS" = false ∧
        ValidateLoadOrder.isNull env "SERVICES" = false ∧
        ValidateLoadOrder.isNull env "STATUS" = false ∧
        ValidateLoadOrder.healthRecordReturned env = true) ∧
      ValidateLoadOrder.throwsIn env = false) := by
  have ht := ValidateLoadOrder.validateLoadOrder_true_iff env
  have he := ValidateLoadOrder.validateLoadOrder_throws_iff env
  refine ⟨ht, he, ?_⟩
  rw [← ht, ← Bool.not_eq_true, ← he]
  cases h : ValidateLoadOrder.validateLoadOrder env with
  | error e => simp
  | ok b => cases b <;> simp

/-- C5, amended, in a scope where everything is loaded: `validateLoadOrder`
returns `true`. -/
theorem validateLoadOrder_loaded :
    ValidateLoadOrder.validateLoadOrder
      (ValidateLoadOrder.loadedEnv ValidateLoadOrder.healthyRecord (obj [])) = .ok true :=
  rfl


/-! ## The service container: invariants -/

namespace Container

theorem lookup_id {c : Container} {id : String} {e : Entry} (h : c.lookup id = some e) :
    e.id = id := by
  unfold lookup at h
  have := List.find?_some h
  simpa using this

theorem lookup_setSlot (c : Container) (id id' : String) (s : Slot) :
    (c.setSlot id s).lookup id' =
      (c.lookup id').map fun e => if e.id = id then { e with slot := s } else e := by
  unfold lookup setSlot
  simp only [List.find?_map]
  congr 1
  apply congrArg (fun p => List.find? p c.entries)
  funext e
  by_cases h : e.id = id <;> simp [Function.comp, h]

theorem lookup_setSlot_self {c : Container} {id : String} {e : Entry} (s : Slot)
    (h : c.lookup id = some e) : (c.setSlot id s).lookup id = some { e with slot := s } := by
  rw [lookup_setSlot, h]
  simp [lookup_id h]

theorem lookup_setSlot_of_ne (c : Container) {id id' : String} (s : Slot) (h : id' ≠ id) :
    (c.setSlot id s).lookup id' = c.lookup id' := by
  rw [lookup_setSlot]
  cases hl : c.lookup id' with
  | none => rfl
  | some e =>
    have := lookup_id hl
    simp [this, h]

theorem lookup_invocations (c : Container) (inv : List String) (id : String) :
    lookup { c with invocations := inv } id = c.lookup id := rfl

theorem atMostOnce_setSlot {c : Container} (id : String) {s : Slot} (hs : s ≠ .notStarted)
    (h : c.AtMostOnce) : (c.setSlot id s).AtMostOnce := by
  intro id'
  refine ⟨fun hu => (h id').1 ?_, (h id').2⟩
  intro e he
  by_cases hid : id' = id
  · subst hid
    have := hu _ (lookup_setSlot_self s he)
    exact absurd this hs
  · rw [← lookup_setSlot_of_ne c s hid] at he
    exact hu e he

theorem atMostOnce_begin {c : Container} {id : String} {e : Entry} (he : c.lookup id = some e)
    (hs : e.slot = .notStarted) (h : c.AtMostOnce) :
    AtMostOnce { c.setSlot id .inProgress with invocations := id :: c.invocations } := by
  intro id'
  by_cases hid : id' = id
  · subst hid
    have h0 : c.constructions id' = 0 := (h id').1 (by
      intro e' he'
      rw [he] at he'
      cases he'
      exact hs)
    have hc : constructions { c.setSlot id' .inProgress with invocations := id' :: c.invocations }
        id' = 1 := by
      unfold constructions at h0 ⊢
      simp [h0]
    refine ⟨fun hu => ?_, by omega⟩
    have := hu _ (by rw [lookup_invocations]; exact lookup_setSlot_self .inProgress he)
    cases this
  · have hc : constructions { c.setSlot id .inProgress with invocations := id :: c.invocations }
        id' = c.constructions id' := by
      unfold constructions
      simp [List.count_cons, Ne.symm hid]
    rw [hc]
    refine ⟨fun hu => (h id').1 ?_, (h id').2⟩
    intro e' he'
    apply hu e'
    rw [lookup_invocations, lookup_setSlot_of_ne c _ hid]
    exact he'

theorem atMostOnce_runBody
    {resolve : Container → String → Container × Except ContainerError Handle}
    (hr : ∀ c d, c.AtMostOnce → (resolve c d).1.AtMostOnce) (steps : List Step) :
    ∀ (c : Container) (acc : List Handle), c.AtMostOnce →
      (runBody resolve c steps acc).1.AtMostOnce := by
  induction steps with
  | nil => intro c acc h; exact h
  | cons st rest ih =>
    intro c acc h
    cases st with
    | fail => exact h
    | get d =>
      have hd := hr c d h
      unfold runBody
      cases hres : resolve c d with
      | mk c1 r =>
        rw [hres] at hd
        cases r with
        | ok hdl => exact ih c1 _ hd
        | error err => exact hd

theorem atMostOnce_getFuel (fuel : Nat) :
    ∀ (c : Container) (id : String), c.AtMostOnce → (getFuel fuel c id).1.AtMostOnce := by
  induction fuel with
  | zero => intro c id h; exact h
  | succ n ih =>
    intro c id h
    unfold getFuel
    cases hl : c.lookup id with
    | none => exact h
    | some e =>
      cases hs : e.slot with
      | completed inst => simpa [hs] using h
      | failed cause => simpa [hs] using h
      | inProgress => simpa [hs] using h
      | notStarted =>
        simp only [hs]
        have h1 := atMostOnce_begin hl hs h
        have h2 := atMostOnce_runBody ih e.factory _ [] h1
        cases hres : runBody (getFuel n)
            { c.setSlot id .inProgress with invocations := id :: c.invocations } e.factory [] with
        | mk c2 r =>
          rw [hres] at h2
          cases r with
          | ok handles => exact atMostOnce_setSlot id (by simp) h2
          | error err =>
            cases err <;> first
              | exact h2
              | exact atMostOnce_setSlot id (by simp) h2

theorem atMostOnce_empty : empty.AtMostOnce := by
  intro id
  simp [constructions, empty]

theorem atMostOnce_step (c : Container) (op : Op) (h : c.AtMostOnce) : (c.step op).AtMostOnce := by
  cases op with
  | get id => exact atMostOnce_getFuel _ c id h
  | register id factory dependencies =>
    unfold step register
    by_cases h1 : id = ""
    · simpa [h1] using h
    · by_cases h2 : (c.lookup id).isSome = true
      · simpa [h1, h2] using h
      · simp only [h1, h2, if_false]
        intro id'
        refine ⟨fun hu => (h id').1 ?_, (h id').2⟩
        intro e he
        apply hu e
        unfold lookup at he ⊢
        simp [List.find?_append, he]

theorem atMostOnce_run (ops : List Op) : ∀ c : Container, c.AtMostOnce → (c.run ops).AtMostOnce := by
  induction ops with
  | nil => intro c h; exact h
  | cons op rest ih => intro c h; exact ih _ (atMostOnce_step c op h)


theorem ids_setSlot (c : Container) (id : String) (s : Slot) : (c.setSlot id s).ids = c.ids := by
  unfold ids setSlot
  simp only [List.map_map]
  apply List.map_congr_left
  intro e _
  by_cases h : e.id = id <;> simp [Function.comp, h]

theorem lookup_isSome_iff (c : Container) (id : String) : (c.lookup id).isSome = true ↔ id ∈ c.ids := by
  unfold lookup ids
  simp only [List.find?_isSome, List.mem_map, beq_iff_eq]

theorem ids_runBody {resolve : Container → String → Container × Except ContainerError Handle}
    (hr : ∀ c d, (resolve c d).1.ids = c.ids) (steps : List Step) :
    ∀ (c : Container) (acc : List Handle), (runBody resolve c steps acc).1.ids = c.ids := by
  induction steps with
  | nil => intro c acc; rfl
  | cons st rest ih =>
    intro c acc
    cases st with
    | fail => rfl
    | get d =>
      have hd := hr c d
      unfold runBody
      cases hres : resolve c d with
      | mk c1 r =>
        rw [hres] at hd
        cases r with
        | ok hdl => exact (ih c1 _).trans hd
        | error err => exact hd

theorem ids_getFuel (fuel : Nat) : ∀ (c : Container) (id : String), (getFuel fuel c id).1.ids = c.ids := by
  induction fuel with
  | zero => intro c id; rfl
  | succ n ih =>
    intro c id
    unfold getFuel
    cases hl : c.lookup id with
    | none => rfl
    | some e =>
      cases hs : e.slot with
      | completed inst => simp [hs]
      | failed cause => simp [hs]
      | inProgress => simp [hs]
      | notStarted =>
        simp only [hs]
        have h1 : ids { c.setSlot id .inProgress with invocations := id :: c.invocations } = c.ids :=
          ids_setSlot c id .inProgress
        have h2 := ids_runBody ih e.factory
          { c.setSlot id .inProgress with invocations := id :: c.invocations } []
        cases hres : runBody (getFuel n)
            { c.setSlot id .inProgress with invocations := id :: c.invocations } e.factory [] with
        | mk c2 r =>
          rw [hres] at h2
          cases r with
          | ok handles => exact (ids_setSlot c2 id _).trans (h2.trans h1)
          | error err =>
            cases err <;> first
              | exact h2.trans h1
              | exact (ids_setSlot c2 id _).trans (h2.trans h1)

theorem get_of_failed {c : Container} {id : String} {e : Entry} {cause : ContainerError}
    (h : c.lookup id = some e) (hs : e.slot = .failed cause) :
    c.get id = (c, .error (.serviceConstructionError id cause)) := by
  unfold get getFuel
  simp [h, hs]

theorem get_of_completed {c : Container} {id : String} {e : Entry} {inst : Instance}
    (h : c.lookup id = some e) (hs : e.slot = .completed inst) :
    c.get id = (c, .ok (.resolved id)) := by
  unfold get getFuel
  simp [h, hs]

theorem failed_of_getFuel_error (fuel : Nat) (c : Container) (id : String) (cause : ContainerError)
    (h : (getFuel fuel c id).2 = .error (.serviceConstructionError id cause)) :
    ∃ e, (getFuel fuel c id).1.lookup id = some e ∧ e.slot = .failed cause := by
  cases fuel with
  | zero => simp [getFuel] at h
  | succ n =>
    unfold getFuel at h ⊢
    cases hl : c.lookup id with
    | none => simp [hl] at h
    | some e =>
      cases hs : e.slot with
      | completed inst => simp [hl, hs] at h
      | inProgress => simp [hl, hs] at h
      | failed cause1 =>
        simp only [hl, hs] at h ⊢
        have : cause1 = cause := by simpa using h
        subst this
        exact ⟨e, rfl, hs⟩
      | notStarted =>
        simp only [hl, hs] at h ⊢
        have hids := ids_runBody (ids_getFuel n) e.factory
          { c.setSlot id .inProgress with invocations := id :: c.invocations } []
        have h1 : ids { c.setSlot id .inProgress with invocations := id :: c.invocations } = c.ids :=
          ids_setSlot c id .inProgress
        have hmem : id ∈ c.ids := (lookup_isSome_iff c id).1 (by simp [hl])
        cases hres : runBody (getFuel n)
            { c.setSlot id .inProgress with invocations := id :: c.invocations } e.factory [] with
        | mk c2 r =>
          rw [hres] at h hids
          have hsome : (c2.lookup id).isSome = true :=
            (lookup_isSome_iff c2 id).2 (by rw [hids, h1]; exact hmem)
          obtain ⟨e2, he2⟩ := Option.isSome_iff_exists.1 hsome
          cases r with
          | ok handles => simp at h
          | error err =>
            cases err <;> simp at h <;>
              (subst h; exact ⟨_, lookup_setSlot_self _ he2, rfl⟩)


theorem countP_setSlot_le (l : List Entry) (id : String) {s : Slot} (hs : s ≠ .notStarted) :
    (l.map fun e => if e.id = id then { e with slot := s } else e).countP
      (fun e => e.slot = .notStarted) ≤ l.countP fun e => e.slot = .notStarted := by
  induction l with
  | nil => simp
  | cons x xs ih =>
    simp only [List.map_cons, List.countP_cons]
    by_cases hx : x.id = id
    · by_cases hxs : x.slot = .notStarted <;> simp [-List.countP_map, hx, hs, hxs] <;> omega
    · simp only [hx, if_false]
      omega

theorem pendingCount_setSlot_le (c : Container) (id : String) {s : Slot} (hs : s ≠ .notStarted) :
    (c.setSlot id s).pendingCount ≤ c.pendingCount :=
  countP_setSlot_le c.entries id hs

theorem countP_begin_lt (l : List Entry) (id : String) (e : Entry)
    (he : l.find? (fun e => e.id == id) = some e) (hs : e.slot = .notStarted) :
    (l.map fun e => if e.id = id then { e with slot := Slot.inProgress } else e).countP
      (fun e => e.slot = .notStarted) < l.countP fun e => e.slot = .notStarted := by
  induction l with
  | nil => simp at he
  | cons x xs ih =>
    simp only [List.map_cons, List.countP_cons]
    by_cases hx : x.id = id
    · have hxe : x = e := by simpa [List.find?_cons, hx] using he
      subst hxe
      have := countP_setSlot_le xs id (s := .inProgress) (by simp)
      simp [-List.countP_map, hx, hs]
      omega
    · have he2 : xs.find? (fun e => e.id == id) = some e := by
        simpa [List.find?_cons, hx] using he
      have := ih he2
      simp only [hx, if_false]
      omega

theorem pendingCount_begin_lt {c : Container} {id : String} {e : Entry}
    (he : c.lookup id = some e) (hs : e.slot = .notStarted) :
    pendingCount { c.setSlot id .inProgress with invocations := id :: c.invocations } <
      c.pendingCount :=
  countP_begin_lt c.entries id e he hs

theorem pendingCount_runBody_le
    {resolve : Container → String → Container × Except ContainerError Handle}
    (hr : ∀ c d, (resolve c d).1.pendingCount ≤ c.pendingCount) (steps : List Step) :
    ∀ (c : Container) (acc : List Handle),
      (runBody resolve c steps acc).1.pendingCount ≤ c.pendingCount := by
  induction steps with
  | nil => intro c acc; exact Nat.le_refl _
  | cons st rest ih =>
    intro c acc
    cases st with
    | fail => exact Nat.le_refl _
    | get d =>
      have hd := hr c d
      unfold runBody
      cases hres : resolve c d with
      | mk c1 r =>
        rw [hres] at hd
        cases r with
        | ok hdl => exact Nat.le_trans (ih c1 _) hd
        | error err => exact hd

theorem pendingCount_getFuel_le (fuel : Nat) :
    ∀ (c : Container) (id : String), (getFuel fuel c id).1.pendingCount ≤ c.pendingCount := by
  induction fuel with
  | zero => intro c id; exact Nat.le_refl _
  | succ n ih =>
    intro c id
    unfold getFuel
    cases hl : c.lookup id with
    | none => exact Nat.le_refl _
    | some e =>
      cases hs : e.slot with
      | completed inst => simp [hs]
      | failed cause => simp [hs]
      | inProgress => simp [hs]
      | notStarted =>
        simp only [hs]
        have h1 := Nat.le_of_lt (pendingCount_begin_lt hl hs)
        have h2 := pendingCount_runBody_le ih e.factory
          { c.setSlot id .inProgress with invocations := id :: c.invocations } []
        cases hres : runBody (getFuel n)
            { c.setSlot id .inProgress with invocations := id :: c.invocations } e.factory [] with
        | mk c2 r =>
          rw [hres] at h2
          cases r with
          | ok handles =>
            exact Nat.le_trans (pendingCount_setSlot_le c2 id (by simp)) (Nat.le_trans h2 h1)
          | error err =>
            cases err <;> first
              | exact Nat.le_trans h2 h1
              | exact Nat.le_trans (pendingCount_setSlot_le c2 id (by simp)) (Nat.le_trans h2 h1)

theorem runBody_ne_outOfFuel
    {resolve : Container → String → Container × Except ContainerError Handle} {n : Nat}
    (hr : ∀ c d, (resolve c d).1.pendingCount ≤ c.pendingCount)
    (hf : ∀ c d, c.pendingCount < n → (resolve c d).2 ≠ .error .outOfFuel) (steps : List Step) :
    ∀ (c : Container) (acc : List Handle), c.pendingCount < n →
      (runBody resolve c steps acc).2 ≠ .error .outOfFuel := by
  induction steps with
  | nil => intro c acc _; simp [runBody]
  | cons st rest ih =>
    intro c acc hc
    cases st with
    | fail => simp [runBody]
    | get d =>
      have hd := hr c d
      have hn := hf c d hc
      unfold runBody
      cases hres : resolve c d with
      | mk c1 r =>
        rw [hres] at hd hn
        cases r with
        | ok hdl => exact ih c1 _ (Nat.lt_of_le_of_lt hd hc)
        | error err => simpa using hn

theorem getFuel_ne_outOfFuel (fuel : Nat) :
    ∀ (c : Container) (id : String), c.pendingCount < fuel →
      (getFuel fuel c id).2 ≠ .error .outOfFuel := by
  induction fuel with
  | zero => intro c id h; omega
  | succ n ih =>
    intro c id hc
    unfold getFuel
    cases hl : c.lookup id with
    | none => simp
    | some e =>
      cases hs : e.slot with
      | completed inst => simp [hs]
      | failed cause => simp [hs]
      | inProgress => simp [hs]
      | notStarted =>
        simp only [hs]
        have h1 := pendingCount_begin_lt hl hs
        have h2 := runBody_ne_outOfFuel (pendingCount_getFuel_le n) ih e.factory
          { c.setSlot id .inProgress with invocations := id :: c.invocations } [] (by omega)
        cases hres : runBody (getFuel n)
            { c.setSlot id .inProgress with invocations := id :: c.invocations } e.factory [] with
        | mk c2 r =>
          rw [hres] at h2
          cases r with
          | ok handles => simp
          | error err => cases err <;> simp at h2 ⊢

theorem get_ne_outOfFuel (c : Container) (id : String) : (c.get id).2 ≠ .error .outOfFuel := by
  apply getFuel_ne_outOfFuel
  have : c.pendingCount ≤ c.entries.length := List.countP_le_length _
  omega


theorem setSlot_invocations (c : Container) (inv : List String) (id : String) (s : Slot) :
    setSlot { c with invocations := inv } id s = { c.setSlot id s with invocations := inv } := rfl

theorem length_ge_two {c : Container} {A B : String} {eA eB : Entry} (hAB : A ≠ B)
    (hA : c.lookup A = some eA) (hB : c.lookup B = some eB) : ∃ k, c.entries.length = k + 2 := by
  obtain ⟨entries, inv⟩ := c
  unfold lookup at hA hB
  simp only at hA hB
  match entries, hA, hB with
  | [], hA, _ => simp at hA
  | [x], hA, hB =>
    have h1 := List.find?_some hA
    have h2 := List.find?_some hB
    have e1 := List.mem_of_find?_eq_some hA
    have e2 := List.mem_of_find?_eq_some hB
    simp only [List.mem_singleton] at e1 e2
    subst e1
    subst e2
    simp only [beq_iff_eq] at h1 h2
    exact absurd (h1.symm.trans h2) hAB
  | x :: y :: rest, _, _ => exact ⟨rest.length, by simp⟩

theorem getFuel_pair {c : Container} {A B : String} {eA eB : Entry} (hAB : A ≠ B)
    (hA : c.lookup A = some eA) (hB : c.lookup B = some eB)
    (hfa : eA.factory = [.get B]) (hfb : eB.factory = [.get A])
    (hsa : eA.slot = .notStarted) (hsb : eB.slot = .notStarted) (k : Nat) :
    getFuel (k + 3) c A = (afterPair c A B, .ok (.resolved A)) := by
  have hBA : B ≠ A := Ne.symm hAB
  have l1 : lookup { c.setSlot A .inProgress with invocations := A :: c.invocations } B =
      some eB := by
    rw [lookup_invocations, lookup_setSlot_of_ne c _ hBA, hB]
  have l2 : lookup { (c.setSlot A .inProgress).setSlot B .inProgress with
      invocations := B :: A :: c.invocations } A = some { eA with slot := .inProgress } := by
    rw [lookup_invocations, lookup_setSlot_of_ne _ _ hAB]
    exact lookup_setSlot_self _ hA
  rw [getFuel]
  simp only [hA, hsa, hfa, runBody]
  rw [getFuel]
  simp only [l1, hsb, hfb, runBody, setSlot_invocations]
  rw [getFuel]
  simp only [l2, List.reverse_cons, List.reverse_nil, List.nil_append]
  rfl


theorem lookup_afterPair_A {c : Container} {A B : String} {eA : Entry} (hAB : A ≠ B)
    (hA : c.lookup A = some eA) :
    (afterPair c A B).lookup A =
      some { eA with slot := .completed { id := A, injected := [.resolved B] } } := by
  unfold afterPair
  rw [lookup_invocations]
  have h1 := lookup_setSlot_self .inProgress hA
  have h2 : ((c.setSlot A .inProgress).setSlot B .inProgress).lookup A = _ :=
    (lookup_setSlot_of_ne _ _ hAB).trans h1
  have h3 : (((c.setSlot A .inProgress).setSlot B .inProgress).setSlot B
      (.completed { id := B, injected := [.deferred A] })).lookup A = _ :=
    (lookup_setSlot_of_ne _ _ hAB).trans h2
  have h4 := lookup_setSlot_self (.completed { id := A, injected := [.resolved B] }) h3
  exact h4

theorem lookup_afterPair_B {c : Container} {A B : String} {eB : Entry} (hAB : A ≠ B)
    (hB : c.lookup B = some eB) :
    (afterPair c A B).lookup B =
      some { eB with slot := .completed { id := B, injected := [.deferred A] } } := by
  unfold afterPair
  rw [lookup_invocations, lookup_setSlot_of_ne _ _ (Ne.symm hAB)]
  have h1 : (c.setSlot A .inProgress).lookup B = some eB :=
    (lookup_setSlot_of_ne _ _ (Ne.symm hAB)).trans hB
  have h2 := lookup_setSlot_self .inProgress h1
  have h3 := lookup_setSlot_self (.completed { id := B, injected := [.deferred A] }) h2
  exact h3

theorem constructions_afterPair (c : Container) {A B : String} (hAB : A ≠ B) :
    (afterPair c A B).constructions A = c.constructions A + 1 ∧
    (afterPair c A B).constructions B = c.constructions B + 1 := by
  unfold constructions afterPair
  simp [List.count_cons, hAB, Ne.symm hAB]

theorem untouched_run_registrations (regs : List (String × List Step × List String)) :
    ∀ c : Container, c.Untouched → (c.run (regs.map Op.ofRegistration)).Untouched := by
  induction regs with
  | nil => intro c h; exact h
  | cons r rest ih =>
    intro c h
    apply ih
    show (c.step (.register r.1 r.2.1 r.2.2)).Untouched
    unfold step register
    by_cases h1 : r.1 = ""
    · simpa [h1] using h
    · by_cases h2 : (c.lookup r.1).isSome = true
      · simpa [h1, h2] using h
      · simp only [h1, h2, if_false]
        intro e he
        have he1 : e ∈ c.entries ++ [Entry.mk r.1 r.2.1 r.2.2 .notStarted] := he
        simp only [List.mem_append, List.mem_singleton] at he1
        rcases he1 with he1 | rfl
        · exact h e he1
        · rfl

theorem health_of_untouched {c : Container} (h : c.Untouched) :
    c.getHealthStatus.resolved = 0 ∧ c.getHealthStatus.failed = 0 ∧
    c.getHealthStatus.status = "healthy" := by
  have hf : (List.filter (fun s : String × ServiceState => decide (s.2 = .failed))
      (c.entries.map fun e => (e.id, Slot.state e.slot))) = [] := by
    rw [List.filter_eq_nil_iff]
    intro s hs
    obtain ⟨e, he, rfl⟩ := List.mem_map.1 hs
    simp [h e he, Slot.state]
  have hr : (List.filter (fun s : String × ServiceState => decide (s.2 = .constructed))
      (c.entries.map fun e => (e.id, Slot.state e.slot))) = [] := by
    rw [List.filter_eq_nil_iff]
    intro s hs
    obtain ⟨e, he, rfl⟩ := List.mem_map.1 hs
    simp [h e he, Slot.state]
  simp [getHealthStatus, hf, hr]

theorem health_of_failed {c : Container} {e : Entry} {cause : ContainerError} (he : e ∈ c.entries)
    (hs : e.slot = .failed cause) :
    c.getHealthStatus.status = "degraded" ∧ 1 ≤ c.getHealthStatus.failed := by
  have hpos : 0 < (List.filter (fun s : String × ServiceState => decide (s.2 = .failed))
      (c.entries.map fun e => (e.id, Slot.state e.slot))).length := by
    apply List.length_pos_of_mem (a := (e.id, Slot.state e.slot))
    rw [List.mem_filter]
    exact ⟨List.mem_map.2 ⟨e, he, rfl⟩, by simp [hs, Slot.state]⟩
  unfold getHealthStatus
  simp only
  constructor
  · rw [if_neg (by omega)]
  · exact hpos

theorem length_run_registrations (regs : List (String × List Step × List String)) :
    ∀ c : Container, (∀ r ∈ regs, r.1 ≠ "" ∧ r.1 ∉ c.ids) → (regs.map fun r => r.1).Nodup →
      (c.run (regs.map Op.ofRegistration)).entries.length = c.entries.length + regs.length := by
  induction regs with
  | nil => intro c _ _; rfl
  | cons r rest ih =>
    intro c h hn
    have hr := h r (List.mem_cons_self _ _)
    have hnone : (c.lookup r.1).isSome = false := by
      rw [Bool.eq_false_iff]
      intro hc
      exact hr.2 ((lookup_isSome_iff c r.1).1 hc)
    simp only [List.map_cons, List.nodup_cons] at hn
    have hstep : c.step (Op.ofRegistration r) =
        { c with entries := c.entries ++ [Entry.mk r.1 r.2.1 r.2.2 .notStarted] } := by
      show c.step (.register r.1 r.2.1 r.2.2) = _
      unfold step register
      simp [hr.1, hnone]
    show (run (c.step (Op.ofRegistration r)) (rest.map Op.ofRegistration)).entries.length = _
    rw [ih _ ?_ hn.2, hstep]
    · simp only [List.length_append, List.length_cons, List.length_nil]
      omega
    · intro r1 hr1
      refine ⟨(h r1 (List.mem_cons_of_mem _ hr1)).1, ?_⟩
      rw [hstep]
      unfold ids
      simp only [List.map_append, List.map_cons, List.map_nil, List.mem_append,
        List.mem_singleton, not_or]
      refine ⟨(h r1 (List.mem_cons_of_mem _ hr1)).2, ?_⟩
      intro heq
      exact hn.1 (heq ▸ List.mem_map.2 ⟨r1, hr1, rfl⟩)

theorem containerOperations_envOf (env : Env) (c : Container)
    (h : env.resolve "container" = some c.toJs) :
    ValidateLoadOrder.containerOperations env = .ok true := by
  unfold ValidateLoadOrder.containerOperations ValidateLoadOrder.healthProbe Env.ident
  rw [h]
  rfl

end Container

/-! ## Claims on the service container -/

/-- C7.  After any sequence of `register` and `get` calls on a new
container, the factory of an identifier `X` has run at most once; `get(X)`
ends (the recursion bound is not hit); and when `get(X)` fails with a
`ServiceConstructionError`, the failure is cached: the next `get(X)` fails
with the same error and leaves the container as it is, so the factory is not
run again. -/
theorem at_most_once_construction (ops : List Container.Op) (X : String) :
    (Container.empty.run ops).constructions X ≤ 1 ∧
    ((Container.empty.run ops).get X).2 ≠ .error .outOfFuel ∧
    ∀ cause, ((Container.empty.run ops).get X).2 = .error (.serviceConstructionError X cause) →
      ((Container.empty.run ops).get X).1.get X =
        (((Container.empty.run ops).get X).1, .error (.serviceConstructionError X cause)) ∧
      ((Container.empty.run ops).get X).1.constructions X ≤ 1 := by
  have hinv := Container.atMostOnce_run ops Container.empty Container.atMostOnce_empty
  refine ⟨(hinv X).2, Container.get_ne_outOfFuel _ _, ?_⟩
  intro cause hfail
  obtain ⟨e, he, hs⟩ := Container.failed_of_getFuel_error _ _ _ _ hfail
  exact ⟨Container.get_of_failed he hs, (Container.atMostOnce_getFuel _ _ X hinv X).2⟩

/-- C7 on the scenario "Bad": the first `get("Bad")` fails with a
`ServiceConstructionError`, the second fails the same way without a change of
state, and the factory has run exactly once. -/
theorem at_most_once_construction_witness :
    (Container.badContainer.get "Bad").2 =
      .error (.serviceConstructionError "Bad" .factoryFailure) ∧
    ((Container.badContainer.get "Bad").1.get "Bad" =
      ((Container.badContainer.get "Bad").1,
        .error (.serviceConstructionError "Bad" .factoryFailure)) ∧
      (Container.badContainer.get "Bad").1.constructions "Bad" ≤ 1) ∧
    ((Container.badContainer.get "Bad").1.get "Bad").1.constructions "Bad" = 1 :=
  ⟨rfl,
   (at_most_once_construction [.register "Bad" [.fail] []] "Bad").2.2 .factoryFailure rfl,
   by decide⟩

/-- C8.  Let `A ≠ B` be registered and not started in any container, the
factory of `A` calling `get(B)` and the factory of `B` calling `get(A)`.  Then
`get(A)` from outside returns the singleton of `A` (no error, the recursion
bound is not hit), and so does `get(B)`; after `get(A)` both singletons are
completed, the deferred handle for `A` that `B` received dereferences to the
completed `A`, a following `get(B)` returns the completed `B` without a change
of state, and each factory has run once more than before.  The check of the
repository for this, `circularDependencyFixed` of `verifyPhase2`, is the
substring test for the deferred getter on the content of
`ServiceRegistration.gs`. -/
theorem circular_pair_resolves (c : Container) (A B : String) (eA eB : Entry) (hAB : A ≠ B)
    (hA : c.lookup A = some eA) (hB : c.lookup B = some eB)
    (hfa : eA.factory = [.get B]) (hfb : eB.factory = [.get A])
    (hsa : eA.slot = .notStarted) (hsb : eB.slot = .notStarted) :
    (c.get A).2 = .ok (.resolved A) ∧
    (c.get B).2 = .ok (.resolved B) ∧
    (c.get A).1.deref (.resolved A) = some { id := A, injected := [.resolved B] } ∧
    (c.get A).1.deref (.resolved B) = some { id := B, injected := [.deferred A] } ∧
    (c.get A).1.deref (.deferred A) = some { id := A, injected := [.resolved B] } ∧
    (c.get A).1.get B = ((c.get A).1, .ok (.resolved B)) ∧
    (c.get A).1.constructions A = c.constructions A + 1 ∧
    (c.get A).1.constructions B = c.constructions B + 1 ∧
    ∀ fs : VerifyPhases12.FileSystem,
      (VerifyPhases12.verifyPhase2 fs).lookup "circularDependencyFixed" =
        (fs.readFileSync VerifyPhases12.regPath).map fun content =>
          VerifyPhases12.includes content
            "engine.setTriageEngine = () => container.get(SERVICES.ZeroTrustTriageEngine)" := by
  obtain ⟨k, hk⟩ := Container.length_ge_two hAB hA hB
  have hgA : c.get A = (Container.afterPair c A B, .ok (.resolved A)) := by
    unfold Container.get
    rw [hk]
    exact Container.getFuel_pair hAB hA hB hfa hfb hsa hsb k
  have hgB : c.get B = (Container.afterPair c B A, .ok (.resolved B)) := by
    unfold Container.get
    rw [hk]
    exact Container.getFuel_pair (Ne.symm hAB) hB hA hfb hfa hsb hsa k
  have lA := Container.lookup_afterPair_A (B := B) hAB hA
  have lB := Container.lookup_afterPair_B (A := A) hAB hB
  rw [hgA, hgB]
  refine ⟨rfl, rfl, ?_, ?_, ?_, ?_, (Container.constructions_afterPair c hAB).1,
    (Container.constructions_afterPair c hAB).2, ?_⟩
  · simp only [Container.deref, lA]
  · simp only [Container.deref, lB]
  · simp only [Container.deref, lA]
  · exact Container.get_of_completed lB rfl
  · intro fs
    unfold VerifyPhases12.verifyPhase2
    cases fs.readFileSync VerifyPhases12.constantsPath <;>
      cases fs.readFileSync VerifyPhases12.blvPath <;>
      cases fs.readFileSync VerifyPhases12.auditPath <;>
      cases fs.readFileSync VerifyPhases12.regPath <;>
      simp [List.lookup]

/-- C8 on the scenario of the services "A" and "B" that need each other. -/
theorem circular_pair_resolves_witness :
    (Container.pairContainer.get "A").2 = .ok (.resolved "A") ∧
    (Container.pairContainer.get "B").2 = .ok (.resolved "B") ∧
    (Container.pairContainer.get "A").1.deref (.resolved "A") =
      some { id := "A", injected := [.resolved "B"] } ∧
    (Container.pairContainer.get "A").1.deref (.resolved "B") =
      some { id := "B", injected := [.deferred "A"] } ∧
    (Container.pairContainer.get "A").1.deref (.deferred "A") =
      some { id := "A", injected := [.resolved "B"] } ∧
    (Container.pairContainer.get "A").1.get "B" =
      ((Container.pairContainer.get "A").1, .ok (.resolved "B")) ∧
    (Container.pairContainer.get "A").1.constructions "A" =
      Container.pairContainer.constructions "A" + 1 ∧
    (Container.pairContainer.get "A").1.constructions "B" =
      Container.pairContainer.constructions "B" + 1 ∧
    ∀ fs : VerifyPhases12.FileSystem,
      (VerifyPhases12.verifyPhase2 fs).lookup "circularDependencyFixed" =
        (fs.readFileSync VerifyPhases12.regPath).map fun content =>
          VerifyPhases12.includes content
            "engine.setTriageEngine = () => container.get(SERVICES.ZeroTrustTriageEngine)" :=
  circular_pair_resolves Container.pairContainer "A" "B" Container.entryA Container.entryB
    (by decide) (by decide) (by decide) rfl rfl rfl rfl

/-- C9.  `getHealthStatus()` is a total function of the container state.
Called before any `get`, after any registrations, it reports zero resolved,
zero failed, as many registered as there are entries (as many as there were
registrations when their identifiers are non-empty and distinct) and the status
`healthy`.  In a state with a failed construction it returns a record as well,
with the status `degraded`.  And in a global scope whose `container` is the
service container, the `try` body of Test 6 of `validateLoadOrder` completes:
its failure branch is not taken. -/
theorem getHealthStatus_never_throws (regs : List (String × List Step × List String))
    (c : Container) (env : Env) :
    ((Container.empty.run (regs.map Container.Op.ofRegistration)).getHealthStatus.resolved = 0 ∧
      (Container.empty.run (regs.map Container.Op.ofRegistration)).getHealthStatus.failed = 0 ∧
      (Container.empty.run (regs.map Container.Op.ofRegistration)).getHealthStatus.registered =
        (Container.empty.run (regs.map Container.Op.ofRegistration)).entries.length ∧
      (Container.empty.run (regs.map Container.Op.ofRegistration)).getHealthStatus.status =
        "healthy") ∧
    ((∀ r ∈ regs, r.1 ≠ "") → (regs.map fun r => r.1).Nodup →
      (Container.empty.run (regs.map Container.Op.ofRegistration)).getHealthStatus.registered =
        regs.length) ∧
    ((∃ e ∈ c.entries, ∃ cause, e.slot = .failed cause) →
      c.getHealthStatus.status = "degraded" ∧ 1 ≤ c.getHealthStatus.failed ∧
      c.getHealthStatus.registered = c.entries.length) ∧
    (env.resolve "container" = some c.toJs →
      ValidateLoadOrder.containerOperations env = .ok true) := by
  have hu := Container.untouched_run_registrations regs Container.empty (by
    intro e he
    cases he)
  obtain ⟨h1, h2, h3⟩ := Container.health_of_untouched hu
  refine ⟨⟨h1, h2, rfl, h3⟩, ?_, ?_, Container.containerOperations_envOf env c⟩
  · intro hne hnd
    have := Container.length_run_registrations regs Container.empty
      (fun r hr => ⟨hne r hr, by simp [Container.ids, Container.empty]⟩) hnd
    show (Container.empty.run (regs.map Container.Op.ofRegistration)).entries.length = _
    rw [this]
    simp [Container.empty]
  · rintro ⟨e, he, cause, hs⟩
    exact ⟨(Container.health_of_failed he hs).1, (Container.health_of_failed he hs).2, rfl⟩

/-- C9 on the scenario "Bad": one registration is reported as one registered,
and after the failed `get("Bad")` the record is `degraded` with one failure and
Test 6 of `validateLoadOrder` passes. -/
theorem getHealthStatus_never_throws_witness :
    Container.badContainer.getHealthStatus.registered = 1 ∧
    ((Container.badContainer.get "Bad").1.getHealthStatus.status = "degraded" ∧
      1 ≤ (Container.badContainer.get "Bad").1.getHealthStatus.failed ∧
      (Container.badContainer.get "Bad").1.getHealthStatus.registered =
        (Container.badContainer.get "Bad").1.entries.length) ∧
    ValidateLoadOrder.containerOperations
      (Container.envOf (Container.badContainer.get "Bad").1) = .ok true :=
  ⟨(getHealthStatus_never_throws [("Bad", [.fail], [])] (Container.badContainer.get "Bad").1
      (Container.envOf (Container.badContainer.get "Bad").1)).2.1 (by decide) (by decide),
   (getHealthStatus_never_throws [("Bad", [.fail], [])] (Container.badContainer.get "Bad").1
      (Container.envOf (Container.badContainer.get "Bad").1)).2.2.1
      ⟨_, List.mem_singleton.2 rfl, .factoryFailure, rfl⟩,
   (getHealthStatus_never_throws [("Bad", [.fail], [])] (Container.badContainer.get "Bad").1
      (Container.envOf (Container.badContainer.get "Bad").1)).2.2.2 rfl⟩


/-! ## Agreement of the two Phase 2 scripts -/

namespace VerifyPhase2Complete

theorem methodValues_ok_iff (env : Env) (cls : String) (methods : List String) :
    (∃ vals, methodValues env cls methods = .ok vals ∧
        (vals.all fun kv => kv.2.truthy) = true) ↔
      ∀ m ∈ methods, ∃ v, env.protoMember cls m = .ok v ∧ v.truthy = true := by
  induction methods with
  | nil => simp [methodValues]
  | cons m ms ih =>
    simp only [methodValues, bind, Except.bind, pure, Except.pure, List.mem_cons,
      forall_eq_or_imp, ← ih]
    cases hm : env.protoMember cls m with
    | error e => simp
    | ok v =>
      cases hr : methodValues env cls ms with
      | error e => simp
      | ok rest => simp [-List.all_eq_true, List.all_cons]

theorem completeServiceTask_true_iff (env : Env) (num cls : String) (methods : List String) :
    (serviceTask env num cls methods).2 = true ↔
      env.typeofIdent cls = "function" ∧
      ∀ m ∈ methods, ∃ v, env.protoMember cls m = .ok v ∧ v.truthy = true := by
  rw [← methodValues_ok_iff]
  unfold serviceTask
  cases hv : methodValues env cls methods with
  | error e => simp
  | ok vals =>
    by_cases h : (env.typeofIdent cls == "function" && vals.all fun kv => kv.2.truthy) = true
    · simp only [h, if_true]
      simpa using h
    · simp only [h, if_false]
      simpa using h

end VerifyPhase2Complete

namespace Phase2FinalVerification

theorem methodFlags_ok_iff (env : Env) (cls : String) (methods : List String) :
    (∃ flags, methodFlags env cls methods = .ok flags ∧
        (flags.all fun kv => kv.2 == true) = true) ↔
      ∀ m ∈ methods, ∃ v, env.protoMember cls m = .ok v ∧ v.truthy = true := by
  induction methods with
  | nil => simp [methodFlags]
  | cons m ms ih =>
    simp only [methodFlags, bind, Except.bind, pure, Except.pure, List.mem_cons,
      forall_eq_or_imp, ← ih]
    cases hm : env.protoMember cls m with
    | error e => simp
    | ok v =>
      cases hr : methodFlags env cls ms with
      | error e => simp
      | ok rest => simp [-List.all_eq_true, List.all_cons]

theorem finalServiceTask_true_iff (env : Env) (task cls : String) (methods : List String) :
    (serviceTask env task cls methods).2 = true ↔
      env.typeofIdent cls = "function" ∧
      ∀ m ∈ methods, ∃ v, env.protoMember cls m = .ok v ∧ v.truthy = true := by
  rw [← methodFlags_ok_iff]
  unfold serviceTask
  by_cases hc : (env.typeofIdent cls == "function") = true
  · have hc1 : env.typeofIdent cls = "function" := by simpa using hc
    simp only [hc, if_true]
    cases hv : methodFlags env cls methods with
    | error e => simp
    | ok flags => simp [hc1]
  · have hc1 : ¬ env.typeofIdent cls = "function" := by simpa using hc
    simp [hc, hc1]

end Phase2FinalVerification

theorem task1_flags_agree (env : Env) :
    (Phase2FinalVerification.task1 env).2 = (VerifyPhase2Complete.task1 env).2 := by
  unfold Phase2FinalVerification.task1 VerifyPhase2Complete.task1
    Phase2FinalVerification.servicesEntries VerifyPhase2Complete.servicesEntries
  cases h1 : env.member "SERVICES" "BusinessLogicValidation" with
  | error e => simp [bind, Except.bind]
  | ok a =>
    cases h2 : env.member "SERVICES" "AuditProtocol" with
    | error e => simp [bind, Except.bind]
    | ok b =>
      simp only [bind, Except.bind, pure, Except.pure]
      cases a.strictEqStr "BusinessLogicValidation" <;> cases b.strictEqStr "AuditProtocol" <;> rfl

/-- C11.  In every global scope the flags of Task 1, Task 2 and Task 3 that
`runPhase2Verification` returns equal the ones `verifyPhase2Complete` returns.
Each Task 2 and Task 3 flag is `true` exactly when the class is a function and
every read of a required prototype method succeeds with a truthy value; both
scripts require the same five methods of `BusinessLogicValidation` and the same
six of `AuditProtocol`. -/
theorem phase2_scripts_agree_on_service_checks (env : Env) :
    (Phase2FinalVerification.runPhase2Verification env).results.task1_services_enum =
      (VerifyPhase2Complete.verifyPhase2Complete env).details.task1 ∧
    (Phase2FinalVerification.runPhase2Verification env).results.task2_business_logic_service =
      (VerifyPhase2Complete.verifyPhase2Complete env).details.task2 ∧
    (Phase2FinalVerification.runPhase2Verification env).results.task3_audit_protocol_service =
      (VerifyPhase2Complete.verifyPhase2Complete env).details.task3 ∧
    ((Phase2FinalVerification.runPhase2Verification env).results.task2_business_logic_service =
        true ↔
      env.typeofIdent "BusinessLogicValidation" = "function" ∧
      ∀ m ∈ Phase2FinalVerification.businessLogicMethods,
        ∃ v, env.protoMember "BusinessLogicValidation" m = .ok v ∧ v.truthy = true) ∧
    ((Phase2FinalVerification.runPhase2Verification env).results.task3_audit_protocol_service =
        true ↔
      env.typeofIdent "AuditProtocol" = "function" ∧
      ∀ m ∈ Phase2FinalVerification.auditProtocolMethods,
        ∃ v, env.protoMember "AuditProtocol" m = .ok v ∧ v.truthy = true) ∧
    Phase2FinalVerification.businessLogicMethods = VerifyPhase2Complete.businessLogicMethods ∧
    Phase2FinalVerification.auditProtocolMethods = VerifyPhase2Complete.auditProtocolMethods ∧
    Phase2FinalVerification.businessLogicMethods.length = 5 ∧
    Phase2FinalVerification.auditProtocolMethods.length = 6 := by
  have r2 := Phase2FinalVerification.finalServiceTask_true_iff env "2" "BusinessLogicValidation"
    Phase2FinalVerification.businessLogicMethods
  have r3 := Phase2FinalVerification.finalServiceTask_true_iff env "3" "AuditProtocol"
    Phase2FinalVerification.auditProtocolMethods
  have c2 := VerifyPhase2Complete.completeServiceTask_true_iff env "2" "BusinessLogicValidation"
    VerifyPhase2Complete.businessLogicMethods
  have c3 := VerifyPhase2Complete.completeServiceTask_true_iff env "3" "AuditProtocol"
    VerifyPhase2Complete.auditProtocolMethods
  refine ⟨?_, ?_, ?_, r2, r3, rfl, rfl, rfl, rfl⟩
  · exact task1_flags_agree env
  · exact Bool.eq_iff_iff.2 (r2.trans c2.symm)
  · exact Bool.eq_iff_iff.2 (r3.trans c3.symm)

end TimeOS
